import Mathlib

/-!
Verification of the naming / versioning / entity-lifecycle core of a
supply-chain planning application.

The development shallowly embeds the TypeScript source:

* `src/lib/naming.ts` — `nextAutoName`, the collision-free auto-namer
  built on the regular expression `^{base}\s+(\d+)$` (case-insensitive);
* `src/lib/data/projects.ts` — `ensureProject`, `renameProject` (and the
  concatenated `scenarios.ts`: `ensureScenario`, `renameScenario`);
* the second `ensureProject` variant bundled with `naming.ts`
  (re-query-on-conflict recovery instead of retry-insert);
* `src/lib/data/results.ts` — `createResult`, `listResults`, `renameResult`;
* `src/utils/resultVersioning.ts` — the local fallback result history;
* the context-layer entry points (`ensureProject` / `ensureScenario`
  wrappers that fail fast for unauthenticated callers).

The persistent store (Supabase/Postgres) is modelled as an explicit
in-memory database `Db` whose insert/update primitives enforce exactly the
unique constraints declared in the repository migrations:
projects `(user_id, name)`, scenarios `(project_id, module_type, name)`,
scenario_outputs `(scenario_id, result_number)` and `(scenario_id, name)`.
A violated constraint surfaces as the code `23505` branch of the source,
modelled by the `none` / `false` outcome of the primitive.  Concurrent
writers are modelled by a schedule of external committed writes
(`ExtWrite`), one consumed before every store call.  Every store call is
also appended to an operation log so that theorems can speak about which
operations a workflow performed.

Names are modelled as `List Char`; JavaScript string indexing, `RegExp`
matching over the fixed pattern, and `parseInt` base 10 are translated
into executable character-list functions.
-/

/-! ## Names and the auto-naming core (`src/lib/naming.ts`) -/

/-- A JavaScript string, as a list of characters. -/
abbrev SName := List Char

/-- `String.toList`, to write name literals compactly. -/
def strA (s : String) : SName := s.toList

/-- The character class `\s` of the JavaScript RegExp, restricted to the
ASCII whitespace characters (space, tab, LF, VT, FF, CR). -/
def isWsChar (c : Char) : Bool :=
  c.toNat == 32 || c.toNat == 9 || c.toNat == 10 || c.toNat == 11 ||
    c.toNat == 12 || c.toNat == 13

/-- The character class `\d` = `[0-9]`. -/
def isDigitChar (c : Char) : Bool :=
  48 ≤ c.toNat && c.toNat ≤ 57

/-- Numeric value of a digit character. -/
def digitVal (c : Char) : ℕ := c.toNat - 48

/-- `parseInt(ds, 10)` on a non-empty all-digit string. -/
def parseDigits (ds : SName) : ℕ :=
  ds.foldl (fun a c => a * 10 + digitVal c) 0

/-- Case-insensitive equality of two character lists (the `i` flag of the
RegExp, on the ASCII letters that occur in base labels). -/
def lowerEq (a b : SName) : Bool :=
  a.map Char.toLower == b.map Char.toLower

/-- Matching `name` against `^{base}\s+(\d+)$` case-insensitively,
returning the captured integer.  The literal `base` must match a prefix
(case-insensitively), followed by at least one whitespace character,
followed by at least one digit, ending the string. -/
def matchAutoName (base name : SName) : Option ℕ :=
  if lowerEq (name.take base.length) base
      && !((name.drop base.length).takeWhile isWsChar).isEmpty
      && !((name.drop base.length).dropWhile isWsChar).isEmpty
      && ((name.drop base.length).dropWhile isWsChar).all isDigitChar then
    some (parseDigits ((name.drop base.length).dropWhile isWsChar))
  else
    none

/-- The set `used` of `nextAutoName`: integers captured by the pattern
from some existing name. -/
def usedNumbers (names : List SName) (base : SName) : List ℕ :=
  names.filterMap (matchAutoName base)

/-- The loop `let i = 1; while (used.has(i)) i++;`, with explicit fuel.
`usedNumbers.length + 1` units of fuel provably suffice (see
`firstFreeAux_spec` and `firstFreeAux_enough`), so the fuel bound is
never reached and the function agrees with the unbounded loop. -/
def firstFreeAux : ℕ → List ℕ → ℕ → ℕ
  | 0, _, i => i
  | fuel + 1, used, i => if i ∈ used then firstFreeAux fuel used (i + 1) else i

/-- Decimal rendering of a natural number (the template literal
`${i}`), accumulator form, with explicit fuel; `n + 1` units suffice. -/
def natToDigitsAux : ℕ → ℕ → SName → SName
  | 0, _, acc => acc
  | fuel + 1, n, acc =>
    if n < 10 then Char.ofNat (48 + n) :: acc
    else natToDigitsAux fuel (n / 10) (Char.ofNat (48 + n % 10) :: acc)

/-- Decimal rendering of a natural number. -/
def natToDigits (n : ℕ) : SName := natToDigitsAux (n + 1) n []

/-- `nextAutoName` of `src/lib/naming.ts`: collect the integers captured
by `^{base}\s+(\d+)$` over the existing names, then return
`"{base} {i}"` for the first `i ≥ 1` not collected. -/
def nextAutoName (names : List SName) (base : SName) : SName :=
  let used := usedNumbers names base
  base ++ Char.ofNat 32 :: natToDigits (firstFreeAux (used.length + 1) used 1)

/-- `generateNameSuggestions` of `src/lib/naming.ts`. -/
def generateNameSuggestions (baseName : SName) (count : ℕ) : List SName :=
  (List.range count).map fun k =>
    baseName ++ Char.ofNat 32 :: Char.ofNat 40 :: natToDigits (k + 2) ++ [Char.ofNat 41]

/-! ### The while loop finds the smallest free integer -/

theorem firstFreeAux_spec (used : List ℕ) :
    ∀ fuel i, (∃ k, k < fuel ∧ (i + k) ∉ used) →
      firstFreeAux fuel used i ∉ used ∧ i ≤ firstFreeAux fuel used i ∧
        ∀ j, i ≤ j → j < firstFreeAux fuel used i → j ∈ used := by
  intro fuel
  induction fuel with
  | zero => intro i ⟨k, hk, _⟩; omega
  | succ fuel ih =>
    intro i ⟨k, hk, hfree⟩
    by_cases hi : i ∈ used
    · have hk0 : k ≠ 0 := by rintro rfl; simp at hfree; exact hfree hi
      have ih2 := ih (i + 1) ⟨k - 1, by omega, by
        have : i + 1 + (k - 1) = i + k := by omega
        rw [this]; exact hfree⟩
      simp only [firstFreeAux, if_pos hi]
      refine ⟨ih2.1, by omega, ?_⟩
      intro j hij hjlt
      rcases Nat.eq_or_lt_of_le hij with h | h
      · exact h ▸ hi
      · exact ih2.2.2 j h hjlt
    · simp only [firstFreeAux, if_neg hi]
      exact ⟨hi, le_refl i, by omega⟩

theorem firstFreeAux_enough (used : List ℕ) :
    ∃ k, k < used.length + 1 ∧ (1 + k) ∉ used := by
  by_contra hcon
  push_neg at hcon
  have hsub : Finset.Icc 1 (used.length + 1) ⊆ used.toFinset := by
    intro m hm
    rw [Finset.mem_Icc] at hm
    rw [List.mem_toFinset]
    have : m = 1 + (m - 1) := by omega
    rw [this]
    exact hcon (m - 1) (by omega)
  have h1 : (Finset.Icc 1 (used.length + 1)).card = used.length + 1 := by
    rw [Nat.card_Icc]; omega
  have h2 := Finset.card_le_card hsub
  have h3 := used.toFinset_card_le
  omega

/-- The result of the naming loop: not used, positive, and every smaller
positive integer is used. -/
theorem firstFree_spec (used : List ℕ) :
    firstFreeAux (used.length + 1) used 1 ∉ used ∧
      1 ≤ firstFreeAux (used.length + 1) used 1 ∧
        ∀ j, 1 ≤ j → j < firstFreeAux (used.length + 1) used 1 → j ∈ used :=
  firstFreeAux_spec used (used.length + 1) 1 (firstFreeAux_enough used)

/-! ### Decimal rendering round-trips with `parseInt` -/

theorem digitVal_ofNat {d : ℕ} (hd : d < 10) :
    digitVal (Char.ofNat (48 + d)) = d := by
  interval_cases d <;> decide

theorem isDigitChar_ofNat {d : ℕ} (hd : d < 10) :
    isDigitChar (Char.ofNat (48 + d)) = true := by
  interval_cases d <;> decide

theorem not_ws_of_digit {c : Char} (h : isDigitChar c = true) :
    isWsChar c = false := by
  simp only [isDigitChar, Bool.and_eq_true, decide_eq_true_eq] at h
  simp only [isWsChar, Bool.or_eq_false_iff, beq_eq_false_iff_ne, ne_eq]
  omega

theorem natToDigitsAux_eq (fuel : ℕ) :
    ∀ n acc, n < fuel → 0 < n →
      natToDigitsAux fuel n acc =
        ((Nat.digits 10 n).reverse.map fun d => Char.ofNat (48 + d)) ++ acc := by
  induction fuel with
  | zero => intro n acc h _; omega
  | succ fuel ih =>
    intro n acc hlt hpos
    by_cases h10 : n < 10
    · simp only [natToDigitsAux, if_pos h10]
      rw [Nat.digits_of_lt 10 n (by omega) h10]
      simp [Nat.mod_eq_of_lt h10]
    · simp only [natToDigitsAux, if_neg h10]
      have hive : n / 10 < fuel := by
        have := Nat.div_lt_self hpos (by norm_num : (1:ℕ) < 10)
        omega
      rw [ih (n / 10) _ hive (by omega)]
      rw [Nat.digits_def' (by norm_num : (1:ℕ) < 10) hpos]
      simp [List.map_append]

theorem foldl_parse_rev (l : List ℕ) (hl : ∀ d ∈ l, d < 10) :
    ∀ a : ℕ,
      List.foldl (fun a c => a * 10 + digitVal c) a
          (l.reverse.map fun d => Char.ofNat (48 + d)) =
        a * 10 ^ l.length + Nat.ofDigits 10 l := by
  induction l with
  | nil => intro a; simp [Nat.ofDigits_nil]
  | cons d l ih =>
    intro a
    have hd : d < 10 := hl d (by simp)
    have hl2 : ∀ x ∈ l, x < 10 := fun x hx => hl x (by simp [hx])
    rw [List.reverse_cons, List.map_append, List.foldl_append, ih hl2 a]
    simp only [List.map_cons, List.map_nil, List.foldl_cons, List.foldl_nil]
    rw [digitVal_ofNat hd, Nat.ofDigits_cons, List.length_cons, pow_succ]
    ring

theorem parseDigits_natToDigits (n : ℕ) : parseDigits (natToDigits n) = n := by
  rcases Nat.eq_zero_or_pos n with rfl | hpos
  · decide
  · rw [natToDigits, natToDigitsAux_eq (n + 1) n [] (by omega) hpos, List.append_nil,
      parseDigits, foldl_parse_rev (Nat.digits 10 n)
        (fun d hd => Nat.digits_lt_base (by norm_num) hd) 0]
    simp [Nat.ofDigits_digits]

theorem natToDigits_ne_nil (n : ℕ) : natToDigits n ≠ [] := by
  rcases Nat.eq_zero_or_pos n with rfl | hpos
  · decide
  · rw [natToDigits, natToDigitsAux_eq (n + 1) n [] (by omega) hpos, List.append_nil]
    simp only [ne_eq, List.map_eq_nil_iff, List.reverse_eq_nil_iff]
    exact Nat.digits_ne_nil_iff_ne_zero.mpr (by omega)

theorem natToDigits_all_digit (n : ℕ) :
    ∀ c ∈ natToDigits n, isDigitChar c = true := by
  rcases Nat.eq_zero_or_pos n with rfl | hpos
  · decide
  · rw [natToDigits, natToDigitsAux_eq (n + 1) n [] (by omega) hpos, List.append_nil]
    intro c hc
    rw [List.mem_map] at hc
    obtain ⟨d, hd, rfl⟩ := hc
    rw [List.mem_reverse] at hd
    exact isDigitChar_ofNat (Nat.digits_lt_base (by norm_num) hd)

/-! ### `nextAutoName` output always re-matches the pattern, hence is fresh -/

theorem matchAutoName_append_self (base : SName) (i : ℕ) :
    matchAutoName base (base ++ Char.ofNat 32 :: natToDigits i) = some i := by
  obtain ⟨d, ds, hds⟩ := List.exists_cons_of_ne_nil (natToDigits_ne_nil i)
  have hdig : isDigitChar d = true := by
    apply natToDigits_all_digit i
    rw [hds]; simp
  unfold matchAutoName
  rw [List.take_left, List.drop_left]
  have hws : isWsChar (Char.ofNat 32) = true := by decide
  have htw : (Char.ofNat 32 :: natToDigits i).takeWhile isWsChar = [Char.ofNat 32] := by
    rw [List.takeWhile_cons, if_pos hws, hds, List.takeWhile_cons,
      if_neg (by rw [not_ws_of_digit hdig]; simp)]
  have hdw : (Char.ofNat 32 :: natToDigits i).dropWhile isWsChar = natToDigits i := by
    rw [List.dropWhile_cons, if_pos hws, hds, List.dropWhile_cons,
      if_neg (by rw [not_ws_of_digit hdig]; simp)]
  rw [htw, hdw]
  have hle : lowerEq base base = true := by
    simp [lowerEq]
  have hall : (natToDigits i).all isDigitChar = true := by
    rw [List.all_eq_true]
    exact natToDigits_all_digit i
  have hne : (natToDigits i).isEmpty = false := by rw [hds]; rfl
  rw [hle, hall]
  simp [hne, parseDigits_natToDigits]

/-- The generated auto-name never collides with an existing name. -/
theorem nextAutoName_not_mem (names : List SName) (base : SName) :
    nextAutoName names base ∉ names := by
  intro hmem
  have hmatch := matchAutoName_append_self base
    (firstFreeAux (List.length (usedNumbers names base) + 1) (usedNumbers names base) 1)
  have hused : firstFreeAux (List.length (usedNumbers names base) + 1)
      (usedNumbers names base) 1 ∈ usedNumbers names base :=
    List.mem_filterMap.mpr ⟨_, hmem, hmatch⟩
  exact (firstFree_spec (usedNumbers names base)).1 hused

theorem usedNumbers_filter (names : List SName) (base : SName) :
    usedNumbers (names.filter fun n => (matchAutoName base n).isSome) base =
      usedNumbers names base := by
  induction names with
  | nil => rfl
  | cons n ns ih =>
    simp only [usedNumbers, List.filter_cons, List.filterMap_cons] at ih ⊢
    cases hm : matchAutoName base n with
    | none => simp [hm, ih]
    | some k => simp [hm, List.filterMap_cons, ih]

/-- Claim C1: `nextAutoName` returns `"{base} i"` where `i` is the smallest
positive integer not captured by `^{base}\s+(k)$` (case-insensitive) over
the existing names; the empty list yields `"{base} 1"`, and names that do
not match the pattern have no effect on the output. -/
theorem claim_C1 (names : List SName) (base : SName) :
    (∃ i : ℕ,
      nextAutoName names base = base ++ Char.ofNat 32 :: natToDigits i ∧
      1 ≤ i ∧
      ¬(∃ n ∈ names, matchAutoName base n = some i) ∧
      (∀ j, 1 ≤ j → j < i → ∃ n ∈ names, matchAutoName base n = some j)) ∧
    nextAutoName [] base = base ++ strA " 1" ∧
    nextAutoName (names.filter fun n => (matchAutoName base n).isSome) base =
      nextAutoName names base := by
  refine ⟨?_, ?_, ?_⟩
  · obtain ⟨h1, h2, h3⟩ := firstFree_spec (usedNumbers names base)
    refine ⟨firstFreeAux (List.length (usedNumbers names base) + 1)
      (usedNumbers names base) 1, rfl, h2, ?_, ?_⟩
    · intro hex
      exact h1 (List.mem_filterMap.mpr hex)
    · intro j hj1 hjlt
      exact List.mem_filterMap.mp (h3 j hj1 hjlt)
  · show base ++ _ = base ++ _
    congr 1
  · rw [nextAutoName, nextAutoName, usedNumbers_filter]

/-! ## The persistent store model

Rows mirror the columns the workflows read or write; the opaque JSON
payload columns (`input_data`, `results_data`, `metrics`, `output_data`)
are modelled by an abstract coded value `Blob`.  Identifiers and
timestamps are naturals handed out by the store (`gen_random_uuid()` /
`now()` become a counter and a logical clock). -/

abbrev Blob := ℕ

inductive ToolType
  | gfa | forecasting | network | inventory | transportation
deriving DecidableEq, Repr

inductive ModuleType
  | forecasting | gfa | inventory | network
deriving DecidableEq, Repr

inductive ScenStatus
  | pending | running | completed | failed
deriving DecidableEq, Repr

structure ProjRow where
  id : ℕ
  user_id : ℕ
  name : SName
  description : Option SName
  tool_type : ToolType
  input_data : Blob
  results_data : Blob
  size_mb : ℕ
  created_at : ℕ
  updated_at : ℕ
deriving DecidableEq, Repr

structure ScenRow where
  id : ℕ
  project_id : ℕ
  user_id : ℕ
  module_type : ModuleType
  name : SName
  description : Option SName
  status : ScenStatus
  created_at : ℕ
  updated_at : ℕ
deriving DecidableEq, Repr

structure OutRow where
  id : ℕ
  project_id : ℕ
  scenario_id : ℕ
  module_type : SName
  name : SName
  result_number : ℕ
  metrics : Blob
  output_data : Blob
  version : ℕ
  created_at : ℕ
deriving DecidableEq, Repr

/-- One store request issued by a workflow.  Insert requests record the
attempted row (logged even when the unique constraint rejects it). -/
inductive Op
  | selectProjects | selectScenarios | selectOutputs
  | insProject (r : ProjRow) | insScenario (r : ScenRow) | insOutput (r : OutRow)
  | updProjects | updScenarios | updOutputs
  | delOutputs
deriving DecidableEq, Repr

structure Db where
  projects : List ProjRow
  scenarios : List ScenRow
  outputs : List OutRow
  nextId : ℕ
  now : ℕ
  log : List Op
deriving DecidableEq, Repr

/-- A committed write by a concurrent client, becoming visible between two
store calls of the workflow under study. -/
inductive ExtWrite
  | idle
  | proj (r : ProjRow)
  | scen (r : ScenRow)
  | out (r : OutRow)
deriving DecidableEq, Repr

def applyExt : ExtWrite → Db → Db
  | .idle, db => db
  | .proj r, db => { db with projects := db.projects ++ [r] }
  | .scen r, db => { db with scenarios := db.scenarios ++ [r] }
  | .out r, db => { db with outputs := db.outputs ++ [r] }

/-- Consume the next scheduled concurrent write (if any) before a store
call. -/
def stepExt : List ExtWrite → Db → List ExtWrite × Db
  | [], db => ([], db)
  | e :: es, db => (es, applyExt e db)

def logOp (o : Op) (db : Db) : Db := { db with log := db.log ++ [o] }

/-- Number of insert requests against the projects table in a log. -/
def countInsProj (l : List Op) : ℕ :=
  (l.filter fun o => match o with | .insProject _ => true | _ => false).length

/-- Number of insert requests against the scenario_outputs table. -/
def countInsOut (l : List Op) : ℕ :=
  (l.filter fun o => match o with | .insOutput _ => true | _ => false).length

/-! ### Read primitives -/

/-- `.select(*).eq(..).limit(1).single()` without `order`: the first row
of the filtered collection (error, hence `none`, when it is empty). -/
def firstProj (p : ProjRow → Bool) (db : Db) : Option ProjRow × Db :=
  ((db.projects.filter p).head?, logOp .selectProjects db)

/-- Latest element by a key, first one winning ties — the deterministic
reading of `.order(key, descending).limit(1)`. -/
def argmaxBy (key : α → ℕ) : List α → Option α
  | [] => none
  | x :: xs =>
    match argmaxBy key xs with
    | none => some x
    | some y => if key x < key y then some y else some x

/-- `.order('updated_at', descending).limit(1).single()` on projects. -/
def topProjByUpdated (p : ProjRow → Bool) (db : Db) : Option ProjRow × Db :=
  (argmaxBy (fun r => r.updated_at) (db.projects.filter p), logOp .selectProjects db)

/-- `.select('name')` over a filtered projects collection. -/
def projNames (p : ProjRow → Bool) (db : Db) : List SName × Db :=
  ((db.projects.filter p).map (fun r => r.name), logOp .selectProjects db)

/-- `.single()` with no limit: a row only when the filter matches exactly
one row. -/
def singleProj (p : ProjRow → Bool) (db : Db) : Option ProjRow × Db :=
  (match db.projects.filter p with
   | [r] => some r
   | _ => none, logOp .selectProjects db)

def topScenByUpdated (p : ScenRow → Bool) (db : Db) : Option ScenRow × Db :=
  (argmaxBy (fun r => r.updated_at) (db.scenarios.filter p), logOp .selectScenarios db)

def scenNames (p : ScenRow → Bool) (db : Db) : List SName × Db :=
  ((db.scenarios.filter p).map (fun r => r.name), logOp .selectScenarios db)

def singleScen (p : ScenRow → Bool) (db : Db) : Option ScenRow × Db :=
  (match db.scenarios.filter p with
   | [r] => some r
   | _ => none, logOp .selectScenarios db)

/-- `.order('result_number', descending).limit(1)` on scenario_outputs. -/
def topOutByNumber (p : OutRow → Bool) (db : Db) : Option OutRow × Db :=
  (argmaxBy (fun r => r.result_number) (db.outputs.filter p), logOp .selectOutputs db)

def outNames (p : OutRow → Bool) (db : Db) : List SName × Db :=
  ((db.outputs.filter p).map (fun r => r.name), logOp .selectOutputs db)

def singleOut (p : OutRow → Bool) (db : Db) : Option OutRow × Db :=
  (match db.outputs.filter p with
   | [r] => some r
   | _ => none, logOp .selectOutputs db)

/-! ### Write primitives (unique constraints of the migrations) -/

/-- Unique `(user_id, name)` on projects. -/
def projConflict (r : ProjRow) (rows : List ProjRow) : Bool :=
  rows.any fun q => q.user_id == r.user_id && q.name == r.name

/-- Unique `(project_id, module_type, name)` on scenarios. -/
def scenConflict (r : ScenRow) (rows : List ScenRow) : Bool :=
  rows.any fun q =>
    q.project_id == r.project_id && q.module_type == r.module_type && q.name == r.name

/-- Unique `(scenario_id, result_number)` and `(scenario_id, name)` on
scenario_outputs. -/
def outConflict (r : OutRow) (rows : List OutRow) : Bool :=
  rows.any fun q =>
    q.scenario_id == r.scenario_id &&
      (q.result_number == r.result_number || q.name == r.name)

/-- Insert a project row; `none` models the `23505` unique-violation
error.  The store fills in `id` and the timestamps. -/
def insertProject (r0 : ProjRow) (db : Db) : Option ProjRow × Db :=
  let r := { r0 with id := db.nextId, created_at := db.now, updated_at := db.now }
  let db1 := logOp (.insProject r) db
  if projConflict r db1.projects then (none, db1)
  else (some r, { db1 with projects := db1.projects ++ [r],
                           nextId := db1.nextId + 1, now := db1.now + 1 })

def insertScenario (r0 : ScenRow) (db : Db) : Option ScenRow × Db :=
  let r := { r0 with id := db.nextId, created_at := db.now, updated_at := db.now }
  let db1 := logOp (.insScenario r) db
  if scenConflict r db1.scenarios then (none, db1)
  else (some r, { db1 with scenarios := db1.scenarios ++ [r],
                           nextId := db1.nextId + 1, now := db1.now + 1 })

def insertOutput (r0 : OutRow) (db : Db) : Option OutRow × Db :=
  let r := { r0 with id := db.nextId, created_at := db.now }
  let db1 := logOp (.insOutput r) db
  if outConflict r db1.outputs then (none, db1)
  else (some r, { db1 with outputs := db1.outputs ++ [r],
                           nextId := db1.nextId + 1, now := db1.now + 1 })

/-- `.update({name}).eq('id', id).eq('user_id', userId)` on projects;
`false` models the `23505` unique-violation error (some updated row would
collide with a distinct row on `(user_id, name)`). -/
def updateProjName (id0 userId : ℕ) (newName : SName) (db : Db) : Bool × Db :=
  let db1 := logOp .updProjects db
  let hitBy := fun (r : ProjRow) => r.id == id0 && r.user_id == userId
  let conflict := db1.projects.any fun r => hitBy r &&
      (db1.projects.any fun q => !(q.id == r.id) && q.user_id == r.user_id && q.name == newName);
  if conflict then (false, db1)
  else (true, { db1 with projects := db1.projects.map fun r =>
    (if hitBy r then { r with name := newName } else r) })

/-- `.update({name}).eq('id', id)` on scenarios. -/
def updateScenName (id0 : ℕ) (newName : SName) (db : Db) : Bool × Db :=
  let db1 := logOp .updScenarios db
  let hitBy := fun (r : ScenRow) => r.id == id0
  let conflict := db1.scenarios.any fun r => hitBy r &&
      (db1.scenarios.any fun q => !(q.id == r.id) && q.project_id == r.project_id &&
        q.module_type == r.module_type && q.name == newName);
  if conflict then (false, db1)
  else (true, { db1 with scenarios := db1.scenarios.map fun r =>
    (if hitBy r then { r with name := newName } else r) })

/-- `.update({name}).eq('id', id)` on scenario_outputs. -/
def updateOutName (id0 : ℕ) (newName : SName) (db : Db) : Bool × Db :=
  let db1 := logOp .updOutputs db
  let hitBy := fun (r : OutRow) => r.id == id0
  let conflict := db1.outputs.any fun r => hitBy r &&
      (db1.outputs.any fun q => !(q.id == r.id) && q.scenario_id == r.scenario_id &&
        q.name == newName);
  if conflict then (false, db1)
  else (true, { db1 with outputs := db1.outputs.map fun r =>
    (if hitBy r then { r with name := newName } else r) })

/-- `.delete().eq('id', id)` on scenario_outputs (the store contract's
delete operation; invoked by UI collaborators, not by the workflows
modelled here). -/
def deleteOutput (id0 : ℕ) (db : Db) : Db :=
  { logOp .delOutputs db with
    outputs := db.outputs.filter fun r => !(r.id == id0) }

/-! ## Workflows

Each workflow threads the schedule of concurrent writes: before every
store call the next scheduled external write (if any) becomes visible.
An empty schedule is a race-free sequential execution. -/

/-- `getModulePrefix` of the `naming.ts` `ensureProject` variant. -/
def modulePrefixOf : ToolType → SName
  | .gfa => strA "GFA"
  | .forecasting => strA "DF"
  | .inventory => strA "IO"
  | .network => strA "Network"
  | .transportation => strA "Transport"

/-- The row fields handed to `insert` by `projects.ts` `ensureProject`
(`description: null`, empty `input_data` and `results_data` blobs,
`size_mb: 0`); id and timestamps are filled in by the store. -/
def mkProjRow (userId : ℕ) (toolType : ToolType) (name : SName) : ProjRow :=
  { id := 0, user_id := userId, name := name, description := none,
    tool_type := toolType, input_data := 0, results_data := 0, size_mb := 0,
    created_at := 0, updated_at := 0 }

/-- `ensureProject` of `src/lib/data/projects.ts`: reuse the most recent
project of the `(user, tool_type)` scope; otherwise insert an auto-named
project (names drawn from all of the user's projects); on a `23505`
conflict, recompute the name and retry the insert once. -/
def ensureProjectData (userId : ℕ) (toolType : ToolType)
    (ext : List ExtWrite) (db : Db) : Option ProjRow × Db :=
  let (ext, db) := stepExt ext db
  let (existing, db) := topProjByUpdated
    (fun r => r.user_id == userId && r.tool_type == toolType) db
  match existing with
  | some p => (some p, db)
  | none =>
    let (ext, db) := stepExt ext db
    let (names, db) := projNames (fun r => r.user_id == userId) db
    let name := nextAutoName names (strA "Project")
    let (ext, db) := stepExt ext db
    match insertProject (mkProjRow userId toolType name) db with
    | (some p, db) => (some p, db)
    | (none, db) =>
      let (ext, db) := stepExt ext db
      let (names2, db) := projNames (fun r => r.user_id == userId) db
      let retryName := nextAutoName names2 (strA "Project")
      let (_, db) := stepExt ext db
      match insertProject (mkProjRow userId toolType retryName) db with
      | (some p, db) => (some p, db)
      | (none, db) => (none, db)

/-- `ensureProject` of the variant bundled with `src/lib/naming.ts`:
reuse the first project of the `(user, tool_type)` scope; otherwise
insert an auto-named project (module-specific prefix, names drawn from
the scope only); on a `23505` conflict, re-query the scope and return
the winner's row — no second insert. -/
def ensureProjectNaming (userId : ℕ) (toolType : ToolType)
    (ext : List ExtWrite) (db : Db) : Option ProjRow × Db :=
  let (ext, db) := stepExt ext db
  let (existing, db) := firstProj
    (fun r => r.user_id == userId && r.tool_type == toolType) db
  match existing with
  | some p => (some p, db)
  | none =>
    let (ext, db) := stepExt ext db
    let (names, db) := projNames
      (fun r => r.user_id == userId && r.tool_type == toolType) db
    let name := nextAutoName names (modulePrefixOf toolType)
    let (ext, db) := stepExt ext db
    match insertProject (mkProjRow userId toolType name) db with
    | (some p, db) => (some p, db)
    | (none, db) =>
      let (_, db) := stepExt ext db
      let (again, db) := firstProj
        (fun r => r.user_id == userId && r.tool_type == toolType) db
      match again with
      | some p => (some p, db)
      | none => (none, db)

/-- The row fields handed to `insert` by `ensureScenario`
(`description: null, status: 'pending'`). -/
def mkScenRow (projectId userId : ℕ) (moduleType : ModuleType) (name : SName) :
    ScenRow :=
  { id := 0, project_id := projectId, user_id := userId,
    module_type := moduleType, name := name, description := none,
    status := .pending, created_at := 0, updated_at := 0 }

/-- `ensureScenario` of `src/lib/data/scenarios.ts`: reuse the most
recent scenario of the `(project, module_type)` scope; otherwise insert
an auto-named scenario; on a `23505` conflict, recompute the name and
retry the insert once. -/
def ensureScenarioData (projectId userId : ℕ) (moduleType : ModuleType)
    (ext : List ExtWrite) (db : Db) : Option ScenRow × Db :=
  let (ext, db) := stepExt ext db
  let (existing, db) := topScenByUpdated
    (fun r => r.project_id == projectId && r.module_type == moduleType) db
  match existing with
  | some s => (some s, db)
  | none =>
    let (ext, db) := stepExt ext db
    let (names, db) := scenNames
      (fun r => r.project_id == projectId && r.module_type == moduleType) db
    let name := nextAutoName names (strA "Scenario")
    let (ext, db) := stepExt ext db
    match insertScenario (mkScenRow projectId userId moduleType name) db with
    | (some s, db) => (some s, db)
    | (none, db) =>
      let (ext, db) := stepExt ext db
      let (names2, db) := scenNames
        (fun r => r.project_id == projectId && r.module_type == moduleType) db
      let retryName := nextAutoName names2 (strA "Scenario")
      let (_, db) := stepExt ext db
      match insertScenario (mkScenRow projectId userId moduleType retryName) db with
      | (some s, db) => (some s, db)
      | (none, db) => (none, db)

/-- What `createResult` returns on success: `select('id, name, created_at')`. -/
structure CreatedInfo where
  id : ℕ
  name : SName
  created_at : ℕ
deriving DecidableEq, Repr

/-- The row fields handed to `insert` by `createResult` (`version: 1`). -/
def mkOutRow (projectId scenarioId : ℕ) (moduleType : SName) (name : SName)
    (resultNumber : ℕ) (metrics payload : Blob) : OutRow :=
  { id := 0, project_id := projectId, scenario_id := scenarioId,
    module_type := moduleType, name := name, result_number := resultNumber,
    metrics := metrics, output_data := payload, version := 1, created_at := 0 }

/-- `createResult` of `src/lib/data/results.ts`: next `result_number` is
the maximum existing number for the scenario plus one (1 when none);
the name comes from `nextAutoName` over the scenario's result names; on
a `23505` conflict the name is recomputed and the insert retried once —
with the originally computed `result_number`. -/
def createResult (projectId scenarioId : ℕ) (moduleType : SName)
    (metrics payload : Blob) (ext : List ExtWrite) (db : Db) :
    Option CreatedInfo × Db :=
  let (ext, db) := stepExt ext db
  let (top, db) := topOutByNumber (fun r => r.scenario_id == scenarioId) db
  let nextResultNumber := match top with
    | some r => r.result_number + 1
    | none => 1
  let (ext, db) := stepExt ext db
  let (names, db) := outNames (fun r => r.scenario_id == scenarioId) db
  let name := nextAutoName names (strA "Result")
  let (ext, db) := stepExt ext db
  match insertOutput
      (mkOutRow projectId scenarioId moduleType name nextResultNumber metrics payload) db with
  | (some r, db) => (some ⟨r.id, r.name, r.created_at⟩, db)
  | (none, db) =>
    let (ext, db) := stepExt ext db
    let (names2, db) := outNames (fun r => r.scenario_id == scenarioId) db
    let retryName := nextAutoName names2 (strA "Result")
    let (_, db) := stepExt ext db
    match insertOutput
        (mkOutRow projectId scenarioId moduleType retryName nextResultNumber metrics payload) db with
    | (some r, db) => (some ⟨r.id, r.name, r.created_at⟩, db)
    | (none, db) => (none, db)

/-- `listResults` of `src/lib/data/results.ts`: the scenario's results,
ordered by `created_at` descending, page `[offset, offset + limit)`. -/
def byCreatedDesc (a b : OutRow) : Prop := b.created_at ≤ a.created_at

instance : DecidableRel byCreatedDesc :=
  fun a b => inferInstanceAs (Decidable (b.created_at ≤ a.created_at))

def listResults (scenarioId limit offset : ℕ) (db : Db) : List OutRow × Db :=
  (((List.insertionSort byCreatedDesc
      (db.outputs.filter fun r => r.scenario_id == scenarioId)).drop offset).take limit,
    logOp .selectOutputs db)

/-- `getResult` of `src/lib/data/results.ts`. -/
def getResult (id0 : ℕ) (db : Db) : Option OutRow × Db :=
  singleOut (fun r => r.id == id0) db

/-- The result record of the three rename functions. -/
structure RenameRes where
  success : Bool
  error : Option SName
deriving DecidableEq, Repr

/-- ASCII apostrophe, for the user-facing conflict messages. -/
def squote : Char := Char.ofNat 39

/-- `A project named <n> already exists. Please choose a different name.` -/
def projectExistsMsg (n : SName) : SName :=
  strA "A project named " ++ squote :: n ++ squote ::
    strA " already exists. Please choose a different name."

def scenarioExistsMsg (n : SName) : SName :=
  strA "A scenario named " ++ squote :: n ++ squote ::
    strA " already exists in this module. Please choose a different name."

def resultExistsMsg (n : SName) : SName :=
  strA "A result named " ++ squote :: n ++ squote ::
    strA " already exists in this scenario. Please choose a different name."

/-- `renameProject` of `src/lib/data/projects.ts`: pre-check for a
distinct project of the same user with the requested name; on a hit, or
on a `23505` from the update, fail with the human-readable message. -/
def renameProject (id0 : ℕ) (newName : SName) (userId : ℕ)
    (ext : List ExtWrite) (db : Db) : RenameRes × Db :=
  let (ext, db) := stepExt ext db
  let (existing, db) := singleProj
    (fun r => r.user_id == userId && r.name == newName && !(r.id == id0)) db
  match existing with
  | some _ => (⟨false, some (projectExistsMsg newName)⟩, db)
  | none =>
    let (_, db) := stepExt ext db
    match updateProjName id0 userId newName db with
    | (true, db) => (⟨true, none⟩, db)
    | (false, db) => (⟨false, some (projectExistsMsg newName)⟩, db)

/-- `renameScenario` of `src/lib/data/scenarios.ts`. -/
def renameScenario (id0 : ℕ) (newName : SName) (projectId : ℕ)
    (moduleType : ModuleType) (ext : List ExtWrite) (db : Db) : RenameRes × Db :=
  let (ext, db) := stepExt ext db
  let (existing, db) := singleScen
    (fun r => r.project_id == projectId && r.module_type == moduleType &&
      r.name == newName && !(r.id == id0)) db
  match existing with
  | some _ => (⟨false, some (scenarioExistsMsg newName)⟩, db)
  | none =>
    let (_, db) := stepExt ext db
    match updateScenName id0 newName db with
    | (true, db) => (⟨true, none⟩, db)
    | (false, db) => (⟨false, some (scenarioExistsMsg newName)⟩, db)

/-- `renameResult` of `src/lib/data/results.ts`. -/
def renameResult (id0 : ℕ) (newName : SName) (scenarioId : ℕ)
    (ext : List ExtWrite) (db : Db) : RenameRes × Db :=
  let (ext, db) := stepExt ext db
  let (existing, db) := singleOut
    (fun r => r.scenario_id == scenarioId && r.name == newName && !(r.id == id0)) db
  match existing with
  | some _ => (⟨false, some (resultExistsMsg newName)⟩, db)
  | none =>
    let (_, db) := stepExt ext db
    match updateOutName id0 newName db with
    | (true, db) => (⟨true, none⟩, db)
    | (false, db) => (⟨false, some (resultExistsMsg newName)⟩, db)

/-! ## Context-layer entry points (unauthenticated fail-fast)

`ScenarioContext.ensureScenario` and `ProjectContext.ensureProject`
start with `if (!user) return null;` before any store access. -/

def ensureScenarioCtx (user : Option ℕ) (projectId : ℕ) (moduleType : ModuleType)
    (ext : List ExtWrite) (db : Db) : Option ScenRow × Db :=
  match user with
  | none => (none, db)
  | some uid => ensureScenarioData projectId uid moduleType ext db

def ensureProjectCtx (user : Option ℕ) (toolType : ToolType)
    (ext : List ExtWrite) (db : Db) : Option ProjRow × Db :=
  match user with
  | none => (none, db)
  | some uid => ensureProjectData uid toolType ext db

/-! ## Local fallback result history (`src/utils/resultVersioning.ts`)

`localStorage` is an association list from keys to stored strings.  The
JSON layer is summarised by exactly the distinctions the code observes:
a stored string either fails `JSON.parse` (`notJson` — the `catch`
branch), parses but with an absent or falsy `results` field
(`noResults` — the `|| []` fallback), or parses to an object whose
`results` field is a list (`results rs`).  The opaque `data` payload is
an arbitrary type `α`; the `new Date().toISOString()` timestamp is an
input. -/

structure VersionedResult (α : Type) where
  resultNumber : ℕ
  timestamp : SName
  data : α
deriving DecidableEq, Repr

inductive RawVal (α : Type)
  | notJson
  | noResults
  | results (rs : List (VersionedResult α))
deriving DecidableEq, Repr

abbrev LocalStore (α : Type) := List (SName × RawVal α)

/-- `localStorage.setItem`. -/
def setItem (k : SName) (v : RawVal α) (ls : LocalStore α) : LocalStore α :=
  (k, v) :: ls.filter fun p => !(p.1 == k)

/-- `localStorage.removeItem`. -/
def removeItem (k : SName) (ls : LocalStore α) : LocalStore α :=
  ls.filter fun p => !(p.1 == k)

/-- The key `scenario_results_` ++ scenarioId. -/
def storageKey (scenarioId : SName) : SName :=
  strA "scenario_results_" ++ scenarioId

/-- `getScenarioResults`: `[]` when the key is absent, when `JSON.parse`
throws (caught), or when the parsed value has no truthy `results` field. -/
def getScenarioResults (ls : LocalStore α) (scenarioId : SName) :
    List (VersionedResult α) :=
  match ls.lookup (storageKey scenarioId) with
  | none => []
  | some .notJson => []
  | some .noResults => []
  | some (.results rs) => rs

/-- `addScenarioResult`: append an entry numbered `length + 1` and return
that number. -/
def addScenarioResult (ls : LocalStore α) (scenarioId : SName)
    (timestamp : SName) (resultData : α) : ℕ × LocalStore α :=
  let existing := getScenarioResults ls scenarioId
  let resultNumber := existing.length + 1
  let newResult : VersionedResult α :=
    { resultNumber := resultNumber, timestamp := timestamp, data := resultData }
  (resultNumber,
    setItem (storageKey scenarioId) (.results (existing ++ [newResult])) ls)

/-- `getLatestResult`: `null` when empty, else the last entry. -/
def getLatestResult (ls : LocalStore α) (scenarioId : SName) :
    Option (VersionedResult α) :=
  let results := getScenarioResults ls scenarioId
  if results.length = 0 then none
  else results.get? (results.length - 1)

/-- `clearScenarioResults`. -/
def clearScenarioResults (ls : LocalStore α) (scenarioId : SName) : LocalStore α :=
  removeItem (storageKey scenarioId) ls

/-! ## Claim C8: unauthenticated callers -/

/-- Claim C8: with no user identity, the context-layer ensure-entity
entry points return null and leave the store untouched — in particular
the operation log is unchanged, so no store operation was attempted. -/
theorem claim_C8 (projectId : ℕ) (moduleType : ModuleType) (toolType : ToolType)
    (ext : List ExtWrite) (db : Db) :
    ensureScenarioCtx none projectId moduleType ext db = (none, db) ∧
      ensureProjectCtx none toolType ext db = (none, db) :=
  ⟨rfl, rfl⟩

/-! ## Claims C9 and C10: the local fallback history -/

theorem lookup_filter_out {α : Type} (k : SName) (l : LocalStore α) :
    List.lookup k (l.filter fun p => !(p.1 == k)) = none := by
  induction l with
  | nil => rfl
  | cons p l ih =>
    by_cases h : p.1 == k
    · simp [List.filter_cons, h, ih]
    · simp only [List.filter_cons, h, Bool.not_false, if_pos]
      rw [List.lookup_cons]
      have hk : (k == p.1) = false := by
        rw [beq_eq_false_iff_ne]
        intro hc
        rw [hc] at h
        simp at h
      simp [hk, ih]

theorem getScenarioResults_setItem {α : Type} (ls : LocalStore α)
    (sid : SName) (rs : List (VersionedResult α)) :
    getScenarioResults (setItem (storageKey sid) (.results rs) ls) sid = rs := by
  simp [getScenarioResults, setItem, List.lookup_cons]

/-- Claim C9: in the local fallback variant, `addScenarioResult` appends
an entry whose number is the current length plus one and returns that
number, and `getLatestResult` is the last appended entry, or null when
the scenario has no results. -/
theorem claim_C9 {α : Type} (ls : LocalStore α) (sid timestamp : SName) (d : α) :
    (addScenarioResult ls sid timestamp d).1 =
        (getScenarioResults ls sid).length + 1 ∧
      getScenarioResults (addScenarioResult ls sid timestamp d).2 sid =
        getScenarioResults ls sid ++
          [⟨(getScenarioResults ls sid).length + 1, timestamp, d⟩] ∧
      getLatestResult (addScenarioResult ls sid timestamp d).2 sid =
        some ⟨(getScenarioResults ls sid).length + 1, timestamp, d⟩ ∧
      getLatestResult ls sid = (getScenarioResults ls sid).getLast? := by
  refine ⟨rfl, ?_, ?_, ?_⟩
  · exact getScenarioResults_setItem ls sid _
  · rw [getLatestResult]
    rw [show (addScenarioResult ls sid timestamp d).2 =
      setItem (storageKey sid) (.results (getScenarioResults ls sid ++
        [⟨(getScenarioResults ls sid).length + 1, timestamp, d⟩])) ls from rfl]
    rw [getScenarioResults_setItem]
    simp
  · rw [getLatestResult, List.getLast?_eq_getElem?]
    cases h : getScenarioResults ls sid with
    | nil => simp
    | cons x xs => simp [List.get?_eq_getElem?]

/-- Claim C10: `getScenarioResults` is total and returns the empty list
when the stored entry is absent, fails to parse, or lacks a `results`
field; `getLatestResult` is null in each of these cases. -/
theorem claim_C10 {α : Type} (ls : LocalStore α) (sid : SName)
    (rest : LocalStore α) :
    getScenarioResults (removeItem (storageKey sid) ls) sid = [] ∧
      getLatestResult (removeItem (storageKey sid) ls) sid = none ∧
      getScenarioResults ((storageKey sid, RawVal.notJson) :: rest) sid = [] ∧
      getLatestResult ((storageKey sid, RawVal.notJson) :: rest) sid = none ∧
      getScenarioResults ((storageKey sid, RawVal.noResults) :: rest) sid = [] ∧
      getLatestResult ((storageKey sid, RawVal.noResults) :: rest) sid = none := by
  have habs : getScenarioResults (removeItem (storageKey sid) ls) sid = [] := by
    rw [getScenarioResults, removeItem, lookup_filter_out]
  have hnj : getScenarioResults ((storageKey sid, RawVal.notJson (α := α)) :: rest) sid = [] := by
    rw [getScenarioResults, List.lookup_cons]
    simp
  have hnr : getScenarioResults ((storageKey sid, RawVal.noResults (α := α)) :: rest) sid = [] := by
    rw [getScenarioResults, List.lookup_cons]
    simp
  refine ⟨habs, ?_, hnj, ?_, hnr, ?_⟩ <;>
    · rw [getLatestResult]
      simp [habs, hnj, hnr]

/-! ## Claim C3: persistent result numbering is max-plus-one -/

theorem argmaxBy_spec {α : Type} (key : α → ℕ) :
    ∀ (l : List α), (l = [] ∧ argmaxBy key l = none) ∨
      (∃ m, argmaxBy key l = some m ∧ m ∈ l ∧ ∀ y ∈ l, key y ≤ key m) := by
  intro l
  induction l with
  | nil => left; exact ⟨rfl, rfl⟩
  | cons x xs ih =>
    right
    rcases ih with ⟨hnil, hnone⟩ | ⟨m, hm, hmem, hge⟩
    · subst hnil
      exact ⟨x, by simp [argmaxBy], by simp, by simp⟩
    · by_cases hk : key x < key m
      · refine ⟨m, ?_, List.mem_cons_of_mem x hmem, ?_⟩
        · simp only [argmaxBy, hm]
          rw [if_pos hk]
        · intro y hy
          rcases List.mem_cons.mp hy with rfl | hy2
          · omega
          · exact hge y hy2
      · refine ⟨x, ?_, by simp, ?_⟩
        · simp only [argmaxBy, hm]
          rw [if_neg hk]
        · intro y hy
          rcases List.mem_cons.mp hy with rfl | hy2
          · exact le_refl _
          · have := hge y hy2
            omega

theorem le_foldr_max (l : List ℕ) : ∀ x ∈ l, x ≤ l.foldr max 0 := by
  induction l with
  | nil => intro x hx; exact absurd hx (by simp)
  | cons a t ih =>
    intro x hx
    rcases List.mem_cons.mp hx with rfl | hx2
    · simp [List.foldr_cons, le_max_iff]
    · have := ih x hx2
      simp only [List.foldr_cons, le_max_iff]
      right
      exact this

theorem foldr_max_le (l : List ℕ) (b : ℕ) (h : ∀ x ∈ l, x ≤ b) :
    l.foldr max 0 ≤ b := by
  induction l with
  | nil => simp
  | cons a t ih =>
    simp only [List.foldr_cons, max_le_iff]
    exact ⟨h a (by simp), ih fun x hx => h x (by simp [hx])⟩

/-- The maximum existing `result_number` of a scenario (0 when none
exist), as the claim words it. -/
def maxResultNumber (db : Db) (scenarioId : ℕ) : ℕ :=
  ((db.outputs.filter fun r => r.scenario_id == scenarioId).map
    fun r => r.result_number).foldr max 0

/-- Race-free `createResult` demo: three results for scenario 5. -/
def c3Db1 : Db := (createResult 1 5 (strA "gfa") 0 0 [] (Db.mk [] [] [] 100 0 [])).2

def c3Db2 : Db := (createResult 1 5 (strA "gfa") 0 0 [] c3Db1).2

def c3Db3 : Db := (createResult 1 5 (strA "gfa") 0 0 [] c3Db2).2

/-- ... then the row with `result_number = 2` (id 101) is deleted. -/
def c3Deleted : Db := deleteOutput 101 c3Db3

/-- Claim C3: race-free `createResult` always succeeds and assigns
`result_number` = maximum existing number for the scenario plus one
(`maxResultNumber` is 0 when none exist, so the first result gets 1);
concretely, three creations number 1, 2, 3, and after deleting number 2
the next creation gets 4 — never a re-used 2. -/
theorem claim_C3 (db : Db) (projectId scenarioId : ℕ) (moduleType : SName)
    (metrics payload : Blob) :
    (∃ r : OutRow,
      (createResult projectId scenarioId moduleType metrics payload [] db).1 =
          some ⟨r.id, r.name, r.created_at⟩ ∧
        (createResult projectId scenarioId moduleType metrics payload [] db).2.outputs =
          db.outputs ++ [r] ∧
        r.scenario_id = scenarioId ∧
        r.result_number = maxResultNumber db scenarioId + 1) ∧
      c3Db3.outputs.map (fun r => r.result_number) = [1, 2, 3] ∧
      (createResult 1 5 (strA "gfa") 0 0 [] c3Deleted).2.outputs.map
        (fun r => r.result_number) = [1, 3, 4] := by
  refine ⟨?_, by decide, by decide⟩
  have hfold := argmaxBy_spec (fun r => r.result_number)
    (db.outputs.filter fun r => r.scenario_id == scenarioId)
  set scope := db.outputs.filter fun r => r.scenario_id == scenarioId with hscope
  set nm := nextAutoName (scope.map fun r => r.name) (strA "Result") with hnm
  have hfresh : nm ∉ scope.map fun r => r.name := nextAutoName_not_mem _ _
  rcases hfold with ⟨hnil, hnone⟩ | ⟨m, hm, hmem, hge⟩
  · -- no results yet: number 1
    have hmax : maxResultNumber db scenarioId = 0 := by
      rw [maxResultNumber, ← hscope, hnil]
      rfl
    have hconf : outConflict
        (mkOutRow projectId scenarioId moduleType nm 1 metrics payload) db.outputs = false := by
      rw [outConflict, List.any_eq_false]
      intro q hq
      simp only [mkOutRow, Bool.and_eq_true, Bool.or_eq_true, beq_iff_eq, not_and, not_or]
      intro hqs
      have hqscope : q ∈ scope := by
        rw [hscope, List.mem_filter]
        exact ⟨hq, by simp [hqs]⟩
      rw [hnil] at hqscope
      exact absurd hqscope (by simp)
    refine ⟨{ mkOutRow projectId scenarioId moduleType nm 1 metrics payload with
      id := db.nextId, created_at := db.now }, ?_, ?_, rfl, by simp [mkOutRow, hmax]⟩
    · simp only [createResult, stepExt, topOutByNumber, outNames, logOp, ← hscope, hnone,
        ← hnm, insertOutput]
      rw [if_neg (by simp only [outConflict] at hconf ⊢; exact (by simpa using hconf))]
    · simp only [createResult, stepExt, topOutByNumber, outNames, logOp, ← hscope, hnone,
        ← hnm, insertOutput]
      rw [if_neg (by simp only [outConflict] at hconf ⊢; exact (by simpa using hconf))]
  · -- existing results: max + 1
    have hmax : maxResultNumber db scenarioId = m.result_number := by
      rw [maxResultNumber, ← hscope]
      have h1 : m.result_number ≤ (scope.map fun r => r.result_number).foldr max 0 :=
        le_foldr_max _ _ (List.mem_map_of_mem _ hmem)
      have h2 : (scope.map fun r => r.result_number).foldr max 0 ≤ m.result_number := by
        apply foldr_max_le
        intro x hx
        rw [List.mem_map] at hx
        obtain ⟨y, hy, rfl⟩ := hx
        exact hge y hy
      omega
    have hconf : outConflict
        (mkOutRow projectId scenarioId moduleType nm (m.result_number + 1) metrics payload)
          db.outputs = false := by
      rw [outConflict, List.any_eq_false]
      intro q hq
      simp only [mkOutRow, Bool.and_eq_true, Bool.or_eq_true, beq_iff_eq, not_and, not_or]
      intro hqs
      have hqscope : q ∈ scope := by
        rw [hscope, List.mem_filter]
        exact ⟨hq, by simp [hqs]⟩
      constructor
      · have := hge q hqscope
        omega
      · intro hcn
        exact hfresh (hcn ▸ List.mem_map_of_mem _ hqscope)
    refine ⟨{ mkOutRow projectId scenarioId moduleType nm (m.result_number + 1)
        metrics payload with id := db.nextId, created_at := db.now }, ?_, ?_, rfl,
      by simp [mkOutRow, hmax]⟩
    · simp only [createResult, stepExt, topOutByNumber, outNames, logOp, ← hscope, hm,
        ← hnm, insertOutput]
      rw [if_neg (by simp only [outConflict] at hconf ⊢; exact (by simpa using hconf))]
    · simp only [createResult, stepExt, topOutByNumber, outNames, logOp, ← hscope, hm,
        ← hnm, insertOutput]
      rw [if_neg (by simp only [outConflict] at hconf ⊢; exact (by simpa using hconf))]

/-! ## Claim C7: result listing order and pagination -/

instance : IsTotal OutRow byCreatedDesc :=
  ⟨fun a b => le_total b.created_at a.created_at⟩

instance : IsTrans OutRow byCreatedDesc :=
  ⟨fun _ _ _ hab hbc => le_trans hbc hab⟩

/-- Claim C7: `listResults` pages through the scenario's results in
`created_at`-descending order; with the same store state (no concurrent
inserts), the pages at offsets 0 and 10 with limit 10 are consecutive,
disjoint slices of one descending order. -/
theorem claim_C7 (db : Db) (scenarioId : ℕ)
    (h : (db.outputs.map fun r => r.id).Nodup) :
    ∃ S : List OutRow,
      S.Perm (db.outputs.filter fun r => r.scenario_id == scenarioId) ∧
        S.Sorted byCreatedDesc ∧
        (listResults scenarioId 10 0 db).1 = S.take 10 ∧
        (listResults scenarioId 10 10 db).1 = (S.drop 10).take 10 ∧
        ∀ r ∈ (listResults scenarioId 10 0 db).1,
          r ∉ (listResults scenarioId 10 10 db).1 := by
  refine ⟨List.insertionSort byCreatedDesc
    (db.outputs.filter fun r => r.scenario_id == scenarioId),
    List.perm_insertionSort _ _, List.sorted_insertionSort _ _, ?_, rfl, ?_⟩
  · simp [listResults]
  · have hnd0 : db.outputs.Nodup := h.of_map
    have hnd1 : (db.outputs.filter fun r => r.scenario_id == scenarioId).Nodup :=
      hnd0.filter _
    have hndS : (List.insertionSort byCreatedDesc
        (db.outputs.filter fun r => r.scenario_id == scenarioId)).Nodup :=
      (List.perm_insertionSort _ _).symm.nodup hnd1
    intro r hr0 hr10
    set S := List.insertionSort byCreatedDesc
      (db.outputs.filter fun r => r.scenario_id == scenarioId)
    have hsplit : S.take 10 ++ S.drop 10 = S := List.take_append_drop 10 S
    have hdisj : List.Disjoint (S.take 10) (S.drop 10) :=
      List.disjoint_of_nodup_append (hsplit.symm ▸ hndS)
    have hr0' : r ∈ S.take 10 := by
      have : (listResults scenarioId 10 0 db).1 = S.take 10 := by simp [listResults]
      rw [this] at hr0
      exact hr0
    have hr10' : r ∈ S.drop 10 := List.take_subset _ _ hr10
    exact hdisj hr0' hr10'

theorem claim_C7_witness :
    (c3Db3.outputs.map fun r => r.id).Nodup ∧
      ∃ S : List OutRow,
        S.Perm (c3Db3.outputs.filter fun r => r.scenario_id == 5) ∧
          S.Sorted byCreatedDesc ∧
          (listResults 5 10 0 c3Db3).1 = S.take 10 ∧
          (listResults 5 10 10 c3Db3).1 = (S.drop 10).take 10 ∧
          ∀ r ∈ (listResults 5 10 0 c3Db3).1, r ∉ (listResults 5 10 10 c3Db3).1 :=
  ⟨by decide, claim_C7 c3Db3 5 (by decide)⟩

/-! ## Claim C6: ensureProject is idempotent (race-free) -/

@[simp] theorem logOp_projects (o : Op) (db : Db) : (logOp o db).projects = db.projects := rfl

@[simp] theorem logOp_scenarios (o : Op) (db : Db) : (logOp o db).scenarios = db.scenarios := rfl

@[simp] theorem logOp_outputs (o : Op) (db : Db) : (logOp o db).outputs = db.outputs := rfl

@[simp] theorem logOp_nextId (o : Op) (db : Db) : (logOp o db).nextId = db.nextId := rfl

@[simp] theorem logOp_now (o : Op) (db : Db) : (logOp o db).now = db.now := rfl

/-- The row `projects.ts ensureProject` inserts on a fresh scope. -/
def dataProjRow (userId : ℕ) (toolType : ToolType) (db : Db) : ProjRow :=
  { mkProjRow userId toolType
      (nextAutoName ((db.projects.filter fun r => r.user_id == userId).map fun r => r.name)
        (strA "Project")) with
    id := db.nextId, created_at := db.now, updated_at := db.now }

theorem projConflict_of_fresh (userId : ℕ) (rows : List ProjRow) (r : ProjRow)
    (hu : r.user_id = userId)
    (hf : r.name ∉ (rows.filter fun q => q.user_id == userId).map fun q => q.name) :
    projConflict r rows = false := by
  rw [projConflict, List.any_eq_false]
  intro q hq
  simp only [Bool.and_eq_true, beq_iff_eq, not_and]
  intro hqu hqn
  apply hf
  rw [List.mem_map]
  exact ⟨q, List.mem_filter.mpr ⟨hq, by simp [hqu, hu]⟩, hqn⟩

theorem ensureProjectData_found (userId : ℕ) (toolType : ToolType) (db : Db)
    (m : ProjRow)
    (hm : argmaxBy (fun r => r.updated_at)
      (db.projects.filter fun r => r.user_id == userId && r.tool_type == toolType)
        = some m) :
    ensureProjectData userId toolType [] db = (some m, logOp .selectProjects db) := by
  simp only [ensureProjectData, stepExt, topProjByUpdated, hm]

theorem ensureProjectData_create (userId : ℕ) (toolType : ToolType) (db : Db)
    (hnone : argmaxBy (fun r => r.updated_at)
      (db.projects.filter fun r => r.user_id == userId && r.tool_type == toolType)
        = none) :
    (ensureProjectData userId toolType [] db).1 = some (dataProjRow userId toolType db) ∧
      (ensureProjectData userId toolType [] db).2.projects =
        db.projects ++ [dataProjRow userId toolType db] := by
  have hconf : projConflict (dataProjRow userId toolType db) db.projects = false :=
    projConflict_of_fresh userId db.projects _ rfl (nextAutoName_not_mem _ _)
  simp only [ensureProjectData, stepExt, topProjByUpdated, hnone, projNames, logOp_projects,
    insertProject, logOp_nextId, logOp_now]
  rw [show ({ mkProjRow userId toolType
      (nextAutoName ((db.projects.filter fun r => r.user_id == userId).map fun r => r.name)
        (strA "Project")) with
    id := db.nextId, created_at := db.now, updated_at := db.now }) =
      dataProjRow userId toolType db from rfl]
  rw [hconf]
  simp

/-- The row the `naming.ts` `ensureProject` variant inserts on a fresh
scope (module-specific prefix, names drawn from the scope only). -/
def namingProjRow (userId : ℕ) (toolType : ToolType) (db : Db) : ProjRow :=
  { mkProjRow userId toolType
      (nextAutoName
        ((db.projects.filter fun r => r.user_id == userId && r.tool_type == toolType).map
          fun r => r.name)
        (modulePrefixOf toolType)) with
    id := db.nextId, created_at := db.now, updated_at := db.now }

theorem ensureProjectNaming_found (userId : ℕ) (toolType : ToolType) (db : Db)
    (m : ProjRow)
    (hm : (db.projects.filter fun r => r.user_id == userId && r.tool_type == toolType).head?
        = some m) :
    ensureProjectNaming userId toolType [] db = (some m, logOp .selectProjects db) := by
  simp only [ensureProjectNaming, stepExt, firstProj, hm]

theorem ensureProjectNaming_create (userId : ℕ) (toolType : ToolType) (db : Db)
    (hnone : (db.projects.filter fun r => r.user_id == userId && r.tool_type == toolType).head?
        = none)
    (hconf : projConflict (namingProjRow userId toolType db) db.projects = false) :
    (ensureProjectNaming userId toolType [] db).1 = some (namingProjRow userId toolType db) ∧
      (ensureProjectNaming userId toolType [] db).2.projects =
        db.projects ++ [namingProjRow userId toolType db] := by
  simp only [ensureProjectNaming, stepExt, firstProj, hnone, projNames, logOp_projects,
    insertProject, logOp_nextId, logOp_now]
  rw [show ({ mkProjRow userId toolType
      (nextAutoName
        ((db.projects.filter fun r => r.user_id == userId && r.tool_type == toolType).map
          fun r => r.name)
        (modulePrefixOf toolType)) with
    id := db.nextId, created_at := db.now, updated_at := db.now }) =
      namingProjRow userId toolType db from rfl]
  rw [hconf]
  simp

theorem ensureProjectNaming_conflict (userId : ℕ) (toolType : ToolType) (db : Db)
    (hnone : (db.projects.filter fun r => r.user_id == userId && r.tool_type == toolType).head?
        = none)
    (hconf : projConflict (namingProjRow userId toolType db) db.projects = true) :
    (ensureProjectNaming userId toolType [] db).1 = none ∧
      (ensureProjectNaming userId toolType [] db).2.projects = db.projects := by
  simp only [ensureProjectNaming, stepExt, firstProj, hnone, projNames, logOp_projects,
    insertProject, logOp_nextId, logOp_now]
  rw [show ({ mkProjRow userId toolType
      (nextAutoName
        ((db.projects.filter fun r => r.user_id == userId && r.tool_type == toolType).map
          fun r => r.name)
        (modulePrefixOf toolType)) with
    id := db.nextId, created_at := db.now, updated_at := db.now }) =
      namingProjRow userId toolType db from rfl]
  rw [hconf]
  simp [hnone]

/-- Claim C6: with no concurrent writer (empty schedule), calling
`ensureProject` twice returns the same entity both times and the second
call adds no row.  Proved for both source variants; the `projects.ts`
variant always yields an entity, the `naming.ts` variant under the
hypothesis that its first call yielded one. -/
theorem claim_C6 (userId : ℕ) (toolType : ToolType) (db : Db) :
    (∃ p : ProjRow,
      (ensureProjectData userId toolType [] db).1 = some p ∧
        (ensureProjectData userId toolType []
          (ensureProjectData userId toolType [] db).2).1 = some p ∧
        (ensureProjectData userId toolType []
          (ensureProjectData userId toolType [] db).2).2.projects =
          (ensureProjectData userId toolType [] db).2.projects) ∧
    (∀ p : ProjRow, (ensureProjectNaming userId toolType [] db).1 = some p →
      (ensureProjectNaming userId toolType []
        (ensureProjectNaming userId toolType [] db).2).1 = some p ∧
        (ensureProjectNaming userId toolType []
          (ensureProjectNaming userId toolType [] db).2).2.projects =
          (ensureProjectNaming userId toolType [] db).2.projects) := by
  constructor
  · rcases argmaxBy_spec (fun r : ProjRow => r.updated_at)
        (db.projects.filter fun r => r.user_id == userId && r.tool_type == toolType)
      with ⟨hnil, hnone⟩ | ⟨m, hm, hmem, hge⟩
    · obtain ⟨h1, h2⟩ := ensureProjectData_create userId toolType db hnone
      have hm2 : argmaxBy (fun r : ProjRow => r.updated_at)
          ((ensureProjectData userId toolType [] db).2.projects.filter
            fun r => r.user_id == userId && r.tool_type == toolType)
          = some (dataProjRow userId toolType db) := by
        rw [h2, List.filter_append, hnil]
        simp [dataProjRow, mkProjRow, argmaxBy]
      have h3 := ensureProjectData_found userId toolType
        (ensureProjectData userId toolType [] db).2 _ hm2
      exact ⟨dataProjRow userId toolType db, h1, by rw [h3], by rw [h3]; simp⟩
    · have h1 := ensureProjectData_found userId toolType db m hm
      have hm2 : argmaxBy (fun r : ProjRow => r.updated_at)
          ((ensureProjectData userId toolType [] db).2.projects.filter
            fun r => r.user_id == userId && r.tool_type == toolType) = some m := by
        rw [h1]
        exact hm
      have h3 := ensureProjectData_found userId toolType
        (ensureProjectData userId toolType [] db).2 _ hm2
      exact ⟨m, by rw [h1], by rw [h3], by rw [h3]; simp⟩
  · intro p hp
    cases hh : (db.projects.filter
        fun r => r.user_id == userId && r.tool_type == toolType).head? with
    | some m =>
      have h1 := ensureProjectNaming_found userId toolType db m hh
      have hpm : p = m := by
        rw [h1] at hp
        exact (Option.some.injEq .. ▸ hp).symm
      subst hpm
      have hh2 : ((ensureProjectNaming userId toolType [] db).2.projects.filter
          fun r => r.user_id == userId && r.tool_type == toolType).head? = some p := by
        rw [h1]
        exact hh
      have h3 := ensureProjectNaming_found userId toolType
        (ensureProjectNaming userId toolType [] db).2 _ hh2
      exact ⟨by rw [h3], by rw [h3]; simp⟩
    | none =>
      by_cases hc : projConflict (namingProjRow userId toolType db) db.projects = true
      · obtain ⟨h1, _⟩ := ensureProjectNaming_conflict userId toolType db hh hc
        rw [h1] at hp
        exact absurd hp (by simp)
      · obtain ⟨h1, h2⟩ := ensureProjectNaming_create userId toolType db hh
          (by simpa using hc)
        have hpm : p = namingProjRow userId toolType db := by
          rw [h1] at hp
          exact (Option.some.injEq .. ▸ hp).symm
        subst hpm
        have hnilf : (db.projects.filter
            fun r => r.user_id == userId && r.tool_type == toolType) = [] :=
          List.head?_eq_none_iff.mp hh
        have hh2 : ((ensureProjectNaming userId toolType [] db).2.projects.filter
            fun r => r.user_id == userId && r.tool_type == toolType).head?
            = some (namingProjRow userId toolType db) := by
          rw [h2, List.filter_append, hnilf]
          simp [namingProjRow, mkProjRow]
        have h3 := ensureProjectNaming_found userId toolType
          (ensureProjectNaming userId toolType [] db).2 _ hh2
        exact ⟨by rw [h3], by rw [h3]; simp⟩

def c6Row : ProjRow :=
  { id := 1, user_id := 0, name := strA "GFA 1", description := none,
    tool_type := .gfa, input_data := 0, results_data := 0, size_mb := 0,
    created_at := 0, updated_at := 0 }

def c6Db : Db := Db.mk [c6Row] [] [] 200 5 []

theorem claim_C6_witness :
    (ensureProjectNaming 0 ToolType.gfa [] c6Db).1 = some c6Row ∧
      (ensureProjectNaming 0 ToolType.gfa []
        (ensureProjectNaming 0 ToolType.gfa [] c6Db).2).1 = some c6Row ∧
      (ensureProjectNaming 0 ToolType.gfa []
        (ensureProjectNaming 0 ToolType.gfa [] c6Db).2).2.projects =
        (ensureProjectNaming 0 ToolType.gfa [] c6Db).2.projects :=
  ⟨by decide, (claim_C6 0 ToolType.gfa c6Db).2 c6Row (by decide)⟩

/-! ## Claim C2: conflict recovery of the ensure-entity workflows

The `naming.ts` variant recovers from a `23505` by re-querying; the
`projects.ts` / `scenarios.ts` variants recover by recomputing the name
and retrying the insert once.  The counterexample below exhibits the
second insert issued by `projects.ts` `ensureProject`. -/

def countInsScen (l : List Op) : ℕ :=
  (l.filter fun o => match o with | .insScenario _ => true | _ => false).length

/-- The concurrent writer's committed row for the counterexample: it won
the race for the name `Project 1` of user 0. -/
def c2Q : ProjRow :=
  { id := 50, user_id := 0, name := strA "Project 1", description := none,
    tool_type := .gfa, input_data := 0, results_data := 0, size_mb := 0,
    created_at := 0, updated_at := 0 }

def c2Db : Db := Db.mk [] [] [] 0 0 []

/-- `c2Q` commits between the name computation and the insert. -/
def c2Ext : List ExtWrite := [.idle, .idle, .proj c2Q]

/-- Counterexample to claim C2: when its insert hits the uniqueness
violation, `projects.ts` `ensureProject` issues a second insert request
(two `insProject` entries in the log) and returns a freshly inserted
`Project 2` row — not the concurrently created entity `c2Q` that a
re-query would have found. -/
theorem claim_C2_counterexample :
    countInsProj (ensureProjectData 0 ToolType.gfa c2Ext c2Db).2.log = 2 ∧
      ((ensureProjectData 0 ToolType.gfa c2Ext c2Db).1.map fun r => r.name) =
        some (strA "Project 2") ∧
      (ensureProjectData 0 ToolType.gfa c2Ext c2Db).1 ≠ some c2Q := by
  decide

theorem scenConflict_of_fresh (projectId : ℕ) (moduleType : ModuleType)
    (rows : List ScenRow) (r : ScenRow)
    (hp : r.project_id = projectId) (hm : r.module_type = moduleType)
    (hf : r.name ∉ (rows.filter
      fun s => s.project_id == projectId && s.module_type == moduleType).map
        fun s => s.name) :
    scenConflict r rows = false := by
  rw [scenConflict, List.any_eq_false]
  intro s hs
  simp only [Bool.and_eq_true, beq_iff_eq, not_and]
  intro hab hsn
  obtain ⟨hsp, hsm⟩ := hab
  apply hf
  rw [List.mem_map]
  exact ⟨s, List.mem_filter.mpr ⟨hs, by simp [hsp, hsm, hp, hm]⟩, hsn⟩

/-- The retry row of `projects.ts` `ensureProject` after a conflict with
concurrent row `q2`: its name is recomputed over the names that now
include `q2`. -/
def dataRetryRow (userId : ℕ) (toolType : ToolType) (db : Db) (q2 : ProjRow) : ProjRow :=
  { mkProjRow userId toolType
      (nextAutoName (((db.projects ++ [q2]).filter fun r => r.user_id == userId).map
        fun r => r.name) (strA "Project")) with
    id := db.nextId, created_at := db.now, updated_at := db.now }

/-- The retry row of `ensureScenario` after a conflict with concurrent
row `q3`. -/
def scenRetryRow (projectId userId : ℕ) (moduleType : ModuleType) (db : Db)
    (q3 : ScenRow) : ScenRow :=
  { mkScenRow projectId userId moduleType
      (nextAutoName
        (((db.scenarios ++ [q3]).filter
          fun r => r.project_id == projectId && r.module_type == moduleType).map
            fun r => r.name) (strA "Scenario")) with
    id := db.nextId, created_at := db.now, updated_at := db.now }

/-- Claim C2 (amended): on a uniqueness-violation race with one
concurrent creator, the `naming.ts` `ensureProject` re-queries the scope
and returns the winner's row with no second insert (exactly one insert
request); the `projects.ts` `ensureProject` and `ensureScenario` instead
recompute the auto-name over the now-visible names and retry the insert
exactly once (a second insert request), returning the retry row. -/
theorem claim_C2_amended (userId projectId : ℕ) (toolType : ToolType)
    (moduleType : ModuleType) (db : Db) (q q2 : ProjRow) (q3 : ScenRow)
    (hnone : (db.projects.filter
      fun r => r.user_id == userId && r.tool_type == toolType).head? = none)
    (hqu : q.user_id = userId) (hqt : q.tool_type = toolType)
    (hqn : q.name = nextAutoName
      ((db.projects.filter fun r => r.user_id == userId && r.tool_type == toolType).map
        fun r => r.name) (modulePrefixOf toolType))
    (h2none : argmaxBy (fun r => r.updated_at) (db.projects.filter
      fun r => r.user_id == userId && r.tool_type == toolType) = none)
    (hq2u : q2.user_id = userId)
    (hq2n : q2.name = nextAutoName
      ((db.projects.filter fun r => r.user_id == userId).map fun r => r.name)
      (strA "Project"))
    (h3none : argmaxBy (fun r => r.updated_at) (db.scenarios.filter
      fun r => r.project_id == projectId && r.module_type == moduleType) = none)
    (hq3p : q3.project_id = projectId) (hq3m : q3.module_type = moduleType)
    (hq3n : q3.name = nextAutoName
      ((db.scenarios.filter
        fun r => r.project_id == projectId && r.module_type == moduleType).map
          fun r => r.name) (strA "Scenario")) :
    ((ensureProjectNaming userId toolType [.idle, .idle, .proj q] db).1 = some q ∧
      (ensureProjectNaming userId toolType [.idle, .idle, .proj q] db).2.projects =
        db.projects ++ [q] ∧
      countInsProj (ensureProjectNaming userId toolType
        [.idle, .idle, .proj q] db).2.log = countInsProj db.log + 1) ∧
    ((ensureProjectData userId toolType [.idle, .idle, .proj q2] db).1 =
        some (dataRetryRow userId toolType db q2) ∧
      (ensureProjectData userId toolType [.idle, .idle, .proj q2] db).2.projects =
        db.projects ++ [q2] ++ [dataRetryRow userId toolType db q2] ∧
      countInsProj (ensureProjectData userId toolType
        [.idle, .idle, .proj q2] db).2.log = countInsProj db.log + 2) ∧
    ((ensureScenarioData projectId userId moduleType [.idle, .idle, .scen q3] db).1 =
        some (scenRetryRow projectId userId moduleType db q3) ∧
      (ensureScenarioData projectId userId moduleType
        [.idle, .idle, .scen q3] db).2.scenarios =
        db.scenarios ++ [q3] ++ [scenRetryRow projectId userId moduleType db q3] ∧
      countInsScen (ensureScenarioData projectId userId moduleType
        [.idle, .idle, .scen q3] db).2.log = countInsScen db.log + 2) := by
  refine ⟨?_, ?_, ?_⟩
  · -- naming variant: re-query, no second insert
    have hfilt : (db.projects.filter
        fun r => r.user_id == userId && r.tool_type == toolType) = [] :=
      List.head?_eq_none_iff.mp hnone
    have hconf1 : projConflict
        ({ mkProjRow userId toolType (nextAutoName
            ((db.projects.filter fun r => r.user_id == userId && r.tool_type == toolType).map
              fun r => r.name) (modulePrefixOf toolType)) with
          id := db.nextId, created_at := db.now, updated_at := db.now })
        (db.projects ++ [q]) = true := by
      rw [projConflict, List.any_eq_true]
      exact ⟨q, by simp, by simp [mkProjRow, hqu, hqn]⟩
    have hreq : ((db.projects ++ [q]).filter
        fun r => r.user_id == userId && r.tool_type == toolType).head? = some q := by
      rw [List.filter_append, hfilt]
      simp [hqu, hqt]
    simp only [ensureProjectNaming, stepExt, applyExt, firstProj, projNames, insertProject,
      logOp_projects, logOp_nextId, logOp_now, hnone]
    rw [hconf1]
    simp only [if_true, logOp_projects, logOp_nextId, logOp_now, hreq]
    refine ⟨?_, ?_, ?_⟩ <;> simp [countInsProj, logOp, List.filter_append]
  · -- data variant: recompute name, second insert
    have hconfA : projConflict
        ({ mkProjRow userId toolType (nextAutoName
            ((db.projects.filter fun r => r.user_id == userId).map fun r => r.name)
            (strA "Project")) with
          id := db.nextId, created_at := db.now, updated_at := db.now })
        (db.projects ++ [q2]) = true := by
      rw [projConflict, List.any_eq_true]
      exact ⟨q2, by simp, by simp [mkProjRow, hq2u, hq2n]⟩
    have hconfB : projConflict (dataRetryRow userId toolType db q2)
        (db.projects ++ [q2]) = false :=
      projConflict_of_fresh userId _ _ rfl (nextAutoName_not_mem _ _)
    simp only [ensureProjectData, stepExt, applyExt, topProjByUpdated, projNames,
      insertProject, logOp_projects, logOp_nextId, logOp_now, h2none]
    rw [hconfA]
    simp only [if_true, logOp_projects, logOp_nextId, logOp_now]
    rw [show ({ mkProjRow userId toolType (nextAutoName
        (((db.projects ++ [q2]).filter fun r => r.user_id == userId).map fun r => r.name)
        (strA "Project")) with
      id := db.nextId, created_at := db.now, updated_at := db.now })
        = dataRetryRow userId toolType db q2 from rfl]
    rw [hconfB]
    refine ⟨?_, ?_, ?_⟩ <;> simp [countInsProj, logOp, List.filter_append]
  · -- ensureScenario: recompute name, second insert
    have hconfA : scenConflict
        ({ mkScenRow projectId userId moduleType (nextAutoName
            ((db.scenarios.filter
              fun r => r.project_id == projectId && r.module_type == moduleType).map
                fun r => r.name) (strA "Scenario")) with
          id := db.nextId, created_at := db.now, updated_at := db.now })
        (db.scenarios ++ [q3]) = true := by
      rw [scenConflict, List.any_eq_true]
      exact ⟨q3, by simp, by simp [mkScenRow, hq3p, hq3m, hq3n]⟩
    have hconfB : scenConflict (scenRetryRow projectId userId moduleType db q3)
        (db.scenarios ++ [q3]) = false :=
      scenConflict_of_fresh projectId moduleType _ _ rfl rfl (nextAutoName_not_mem _ _)
    simp only [ensureScenarioData, stepExt, applyExt, topScenByUpdated, scenNames,
      insertScenario, logOp_scenarios, logOp_nextId, logOp_now, h3none]
    rw [hconfA]
    simp only [if_true, logOp_scenarios, logOp_nextId, logOp_now]
    rw [show ({ mkScenRow projectId userId moduleType (nextAutoName
        (((db.scenarios ++ [q3]).filter
          fun r => r.project_id == projectId && r.module_type == moduleType).map
            fun r => r.name) (strA "Scenario")) with
      id := db.nextId, created_at := db.now, updated_at := db.now })
        = scenRetryRow projectId userId moduleType db q3 from rfl]
    rw [hconfB]
    refine ⟨?_, ?_, ?_⟩ <;> simp [countInsScen, logOp, List.filter_append]

def c2WQ : ProjRow :=
  { id := 51, user_id := 0, name := strA "GFA 1", description := none,
    tool_type := .gfa, input_data := 0, results_data := 0, size_mb := 0,
    created_at := 0, updated_at := 0 }

def c2WQ3 : ScenRow :=
  { id := 60, project_id := 7, user_id := 0, module_type := .gfa,
    name := strA "Scenario 1", description := none, status := .pending,
    created_at := 0, updated_at := 0 }

theorem claim_C2_amended_witness :
    (c2Db.projects.filter
      fun r => r.user_id == 0 && r.tool_type == ToolType.gfa).head? = none ∧
    c2WQ.user_id = 0 ∧ c2WQ.tool_type = ToolType.gfa ∧
    c2WQ.name = nextAutoName
      ((c2Db.projects.filter fun r => r.user_id == 0 && r.tool_type == ToolType.gfa).map
        fun r => r.name) (modulePrefixOf ToolType.gfa) ∧
    argmaxBy (fun r => r.updated_at) (c2Db.projects.filter
      fun r => r.user_id == 0 && r.tool_type == ToolType.gfa) = none ∧
    c2Q.user_id = 0 ∧
    c2Q.name = nextAutoName
      ((c2Db.projects.filter fun r => r.user_id == 0).map fun r => r.name)
      (strA "Project") ∧
    argmaxBy (fun r => r.updated_at) (c2Db.scenarios.filter
      fun r => r.project_id == 7 && r.module_type == ModuleType.gfa) = none ∧
    c2WQ3.project_id = 7 ∧ c2WQ3.module_type = ModuleType.gfa ∧
    c2WQ3.name = nextAutoName
      ((c2Db.scenarios.filter
        fun r => r.project_id == 7 && r.module_type == ModuleType.gfa).map
          fun r => r.name) (strA "Scenario") ∧
    (((ensureProjectNaming 0 ToolType.gfa [.idle, .idle, .proj c2WQ] c2Db).1 = some c2WQ ∧
      (ensureProjectNaming 0 ToolType.gfa [.idle, .idle, .proj c2WQ] c2Db).2.projects =
        c2Db.projects ++ [c2WQ] ∧
      countInsProj (ensureProjectNaming 0 ToolType.gfa
        [.idle, .idle, .proj c2WQ] c2Db).2.log = countInsProj c2Db.log + 1) ∧
    ((ensureProjectData 0 ToolType.gfa [.idle, .idle, .proj c2Q] c2Db).1 =
        some (dataRetryRow 0 ToolType.gfa c2Db c2Q) ∧
      (ensureProjectData 0 ToolType.gfa [.idle, .idle, .proj c2Q] c2Db).2.projects =
        c2Db.projects ++ [c2Q] ++ [dataRetryRow 0 ToolType.gfa c2Db c2Q] ∧
      countInsProj (ensureProjectData 0 ToolType.gfa
        [.idle, .idle, .proj c2Q] c2Db).2.log = countInsProj c2Db.log + 2) ∧
    ((ensureScenarioData 7 0 ModuleType.gfa [.idle, .idle, .scen c2WQ3] c2Db).1 =
        some (scenRetryRow 7 0 ModuleType.gfa c2Db c2WQ3) ∧
      (ensureScenarioData 7 0 ModuleType.gfa
        [.idle, .idle, .scen c2WQ3] c2Db).2.scenarios =
        c2Db.scenarios ++ [c2WQ3] ++ [scenRetryRow 7 0 ModuleType.gfa c2Db c2WQ3] ∧
      countInsScen (ensureScenarioData 7 0 ModuleType.gfa
        [.idle, .idle, .scen c2WQ3] c2Db).2.log = countInsScen c2Db.log + 2)) :=
  ⟨by decide, by decide, by decide, by decide, by decide, by decide, by decide,
    by decide, by decide, by decide, by decide,
    claim_C2_amended 0 7 ToolType.gfa ModuleType.gfa c2Db c2WQ c2Q c2WQ3
      (by decide) (by decide) (by decide) (by decide) (by decide) (by decide)
      (by decide) (by decide) (by decide) (by decide) (by decide)⟩

/-! ## Claim C4: the createResult retry

The retry recomputes the name but re-uses the originally computed
`result_number`; under the `(scenario_id, result_number)` unique
constraint a creation race therefore makes the retry collide again, and
`createResult` surfaces the failure as `null`. -/

/-- The rows of the insert requests recorded in a log. -/
def insOutRows (l : List Op) : List OutRow :=
  l.filterMap fun o => match o with | .insOutput r => some r | _ => none

def c4Q : OutRow :=
  { id := 70, project_id := 1, scenario_id := 5, module_type := strA "gfa",
    name := strA "Result 1", result_number := 1, metrics := 0, output_data := 0,
    version := 1, created_at := 0 }

def c4Db : Db := Db.mk [] [] [] 0 0 []

/-- `c4Q` commits between the name computation and the insert. -/
def c4Ext : List ExtWrite := [.idle, .idle, .out c4Q]

/-- Counterexample to claim C4: after the first insert hits the
uniqueness violation, the retry request carries a freshly recomputed
name (`Result 2`) but the same `result_number` 1 — not a freshly
recomputed number (which would have been 2 and would have succeeded) —
so the retry collides again and `createResult` returns null. -/
theorem claim_C4_counterexample :
    (createResult 1 5 (strA "gfa") 0 0 c4Ext c4Db).1 = none ∧
      (insOutRows (createResult 1 5 (strA "gfa") 0 0 c4Ext c4Db).2.log).map
        (fun r => (r.result_number, r.name)) =
        [(1, strA "Result 1"), (1, strA "Result 2")] := by
  decide

theorem maxResultNumber_of_argmax (db : Db) (sid : ℕ) (m : OutRow)
    (hmem : m ∈ db.outputs.filter fun r => r.scenario_id == sid)
    (hge : ∀ y ∈ db.outputs.filter fun r => r.scenario_id == sid,
      y.result_number ≤ m.result_number) :
    maxResultNumber db sid = m.result_number := by
  rw [maxResultNumber]
  have h1 : m.result_number ≤
      ((db.outputs.filter fun r => r.scenario_id == sid).map
        fun r => r.result_number).foldr max 0 :=
    le_foldr_max _ _ (List.mem_map_of_mem _ hmem)
  have h2 : ((db.outputs.filter fun r => r.scenario_id == sid).map
      fun r => r.result_number).foldr max 0 ≤ m.result_number := by
    apply foldr_max_le
    intro x hx
    rw [List.mem_map] at hx
    obtain ⟨y, hy, rfl⟩ := hx
    exact hge y hy
  omega

/-- An insert request row of `createResult` (store-assigned id and
timestamp, caller-supplied name and number). -/
def outReqRow (projectId scenarioId : ℕ) (moduleType name : SName) (num : ℕ)
    (metrics payload : Blob) (db : Db) : OutRow :=
  { mkOutRow projectId scenarioId moduleType name num metrics payload with
    id := db.nextId, created_at := db.now }

/-- Claim C4 (amended): when a concurrent creator wins the race for the
scenario's next `result_number`, `createResult` retries exactly once,
with a freshly recomputed name but the originally computed
`result_number`; the retry therefore collides again and the failure is
surfaced as null, with no third insert (exactly two insert requests). -/
theorem claim_C4_amended (projectId scenarioId : ℕ) (moduleType : SName)
    (metrics payload : Blob) (db : Db) (q : OutRow)
    (hqs : q.scenario_id = scenarioId)
    (hqn : q.result_number = maxResultNumber db scenarioId + 1) :
    (createResult projectId scenarioId moduleType metrics payload
      [.idle, .idle, .out q] db).1 = none ∧
      (createResult projectId scenarioId moduleType metrics payload
        [.idle, .idle, .out q] db).2.outputs = db.outputs ++ [q] ∧
      insOutRows (createResult projectId scenarioId moduleType metrics payload
        [.idle, .idle, .out q] db).2.log =
        insOutRows db.log ++
          [outReqRow projectId scenarioId moduleType
            (nextAutoName ((db.outputs.filter fun r => r.scenario_id == scenarioId).map
              fun r => r.name) (strA "Result"))
            (maxResultNumber db scenarioId + 1) metrics payload db,
          outReqRow projectId scenarioId moduleType
            (nextAutoName (((db.outputs ++ [q]).filter fun r => r.scenario_id == scenarioId).map
              fun r => r.name) (strA "Result"))
            (maxResultNumber db scenarioId + 1) metrics payload db] := by
  rcases argmaxBy_spec (fun r : OutRow => r.result_number)
      (db.outputs.filter fun r => r.scenario_id == scenarioId)
    with ⟨hnil, hnone⟩ | ⟨m, hm, hmem, hge⟩
  · have hmax : maxResultNumber db scenarioId = 0 := by
      rw [maxResultNumber, hnil]
      rfl
    rw [hmax] at hqn ⊢
    have hconf1 : outConflict
        ({ mkOutRow projectId scenarioId moduleType (nextAutoName
            ((db.outputs.filter fun r => r.scenario_id == scenarioId).map fun r => r.name)
            (strA "Result")) (0 + 1) metrics payload with
          id := db.nextId, created_at := db.now })
        (db.outputs ++ [q]) = true := by
      rw [outConflict, List.any_eq_true]
      exact ⟨q, by simp, by simp [mkOutRow, hqs, hqn]⟩
    have hconf2 : outConflict
        ({ mkOutRow projectId scenarioId moduleType (nextAutoName
            (((db.outputs ++ [q]).filter fun r => r.scenario_id == scenarioId).map
              fun r => r.name)
            (strA "Result")) (0 + 1) metrics payload with
          id := db.nextId, created_at := db.now })
        (db.outputs ++ [q]) = true := by
      rw [outConflict, List.any_eq_true]
      exact ⟨q, by simp, by simp [mkOutRow, hqs, hqn]⟩
    simp only [createResult, stepExt, applyExt, topOutByNumber, outNames, insertOutput,
      logOp_outputs, logOp_nextId, logOp_now, hnone]
    rw [hconf1]
    simp only [if_true, logOp_outputs, logOp_nextId, logOp_now]
    rw [hconf2]
    refine ⟨?_, ?_, ?_⟩ <;>
      simp [insOutRows, outReqRow, logOp, List.filterMap_append]
  · have hmax : maxResultNumber db scenarioId = m.result_number :=
      maxResultNumber_of_argmax db scenarioId m hmem hge
    rw [hmax] at hqn ⊢
    have hconf1 : outConflict
        ({ mkOutRow projectId scenarioId moduleType (nextAutoName
            ((db.outputs.filter fun r => r.scenario_id == scenarioId).map fun r => r.name)
            (strA "Result")) (m.result_number + 1) metrics payload with
          id := db.nextId, created_at := db.now })
        (db.outputs ++ [q]) = true := by
      rw [outConflict, List.any_eq_true]
      exact ⟨q, by simp, by simp [mkOutRow, hqs, hqn]⟩
    have hconf2 : outConflict
        ({ mkOutRow projectId scenarioId moduleType (nextAutoName
            (((db.outputs ++ [q]).filter fun r => r.scenario_id == scenarioId).map
              fun r => r.name)
            (strA "Result")) (m.result_number + 1) metrics payload with
          id := db.nextId, created_at := db.now })
        (db.outputs ++ [q]) = true := by
      rw [outConflict, List.any_eq_true]
      exact ⟨q, by simp, by simp [mkOutRow, hqs, hqn]⟩
    simp only [createResult, stepExt, applyExt, topOutByNumber, outNames, insertOutput,
      logOp_outputs, logOp_nextId, logOp_now, hm]
    rw [hconf1]
    simp only [if_true, logOp_outputs, logOp_nextId, logOp_now]
    rw [hconf2]
    refine ⟨?_, ?_, ?_⟩ <;>
      simp [insOutRows, outReqRow, logOp, List.filterMap_append]

theorem claim_C4_amended_witness :
    c4Q.scenario_id = 5 ∧ c4Q.result_number = maxResultNumber c4Db 5 + 1 ∧
      ((createResult 1 5 (strA "gfa") 0 0 [.idle, .idle, .out c4Q] c4Db).1 = none ∧
        (createResult 1 5 (strA "gfa") 0 0 [.idle, .idle, .out c4Q] c4Db).2.outputs =
          c4Db.outputs ++ [c4Q] ∧
        insOutRows (createResult 1 5 (strA "gfa") 0 0
          [.idle, .idle, .out c4Q] c4Db).2.log =
          insOutRows c4Db.log ++
            [outReqRow 1 5 (strA "gfa")
              (nextAutoName ((c4Db.outputs.filter fun r => r.scenario_id == 5).map
                fun r => r.name) (strA "Result"))
              (maxResultNumber c4Db 5 + 1) 0 0 c4Db,
            outReqRow 1 5 (strA "gfa")
              (nextAutoName (((c4Db.outputs ++ [c4Q]).filter
                fun r => r.scenario_id == 5).map fun r => r.name) (strA "Result"))
              (maxResultNumber c4Db 5 + 1) 0 0 c4Db]) :=
  ⟨by decide, by decide,
    claim_C4_amended 1 5 (strA "gfa") 0 0 c4Db c4Q (by decide) (by decide)⟩

/-! ## Claim C5: rename with uniqueness validation -/

theorem filter_and_eq_of_filter_eq {α : Type} (p q : α → Bool) (l : List α)
    (res : List α) (h : l.filter p = res) :
    l.filter (fun x => p x && q x) = res.filter q := by
  subst h
  induction l with
  | nil => rfl
  | cons a t ih =>
    by_cases hp : p a
    · by_cases hq : q a <;> simp [List.filter_cons, hp, hq, ih]
    · simp [List.filter_cons, hp, ih]

theorem map_id_of_mem {α : Type} (l : List α) (f : α → α)
    (h : ∀ x ∈ l, f x = x) : l.map f = l := by
  induction l with
  | nil => rfl
  | cons a t ih =>
    rw [List.map_cons, h a (by simp), ih fun x hx => h x (by simp [hx])]

/-- Claim C5: for each rename operation — if another entity of the same
scope already holds the requested name, the call fails with the
human-readable message and mutates nothing; renaming an entity to its
own current name succeeds race-free (the pre-check excludes the entity's
own id); and a uniqueness violation raised by the update itself (a
concurrent writer took the name between pre-check and update) is
converted into the same human-readable message. -/
theorem claim_C5 :
    (∀ (id0 userId : ℕ) (newName : SName) (db : Db) (other : ProjRow),
      db.projects.filter (fun r => r.user_id == userId && r.name == newName) = [other] →
      other.id ≠ id0 →
      (renameProject id0 newName userId [] db).1 =
        ⟨false, some (projectExistsMsg newName)⟩ ∧
      (renameProject id0 newName userId [] db).2.projects = db.projects) ∧
    (∀ (id0 userId : ℕ) (db : Db) (p : ProjRow),
      p.id = id0 → p.user_id = userId →
      db.projects.filter (fun r => r.user_id == userId && r.name == p.name) = [p] →
      (∀ r ∈ db.projects, r.id = id0 → r = p) →
      (renameProject id0 p.name userId [] db).1 = ⟨true, none⟩ ∧
      (renameProject id0 p.name userId [] db).2.projects = db.projects) ∧
    (∀ (id0 userId : ℕ) (newName : SName) (db : Db) (p qc : ProjRow),
      p ∈ db.projects → p.id = id0 → p.user_id = userId →
      db.projects.filter (fun r => r.user_id == userId && r.name == newName) = [] →
      qc.user_id = userId → qc.name = newName → qc.id ≠ id0 →
      (renameProject id0 newName userId [.idle, .proj qc] db).1 =
        ⟨false, some (projectExistsMsg newName)⟩ ∧
      (renameProject id0 newName userId [.idle, .proj qc] db).2.projects =
        db.projects ++ [qc]) ∧
    (∀ (id0 projectId : ℕ) (moduleType : ModuleType) (newName : SName) (db : Db)
      (other : ScenRow),
      db.scenarios.filter (fun r => r.project_id == projectId &&
        r.module_type == moduleType && r.name == newName) = [other] →
      other.id ≠ id0 →
      (renameScenario id0 newName projectId moduleType [] db).1 =
        ⟨false, some (scenarioExistsMsg newName)⟩ ∧
      (renameScenario id0 newName projectId moduleType [] db).2.scenarios =
        db.scenarios) ∧
    (∀ (id0 projectId : ℕ) (moduleType : ModuleType) (db : Db) (p : ScenRow),
      p.id = id0 → p.project_id = projectId → p.module_type = moduleType →
      db.scenarios.filter (fun r => r.project_id == projectId &&
        r.module_type == moduleType && r.name == p.name) = [p] →
      (∀ r ∈ db.scenarios, r.id = id0 → r = p) →
      (renameScenario id0 p.name projectId moduleType [] db).1 = ⟨true, none⟩ ∧
      (renameScenario id0 p.name projectId moduleType [] db).2.scenarios =
        db.scenarios) ∧
    (∀ (id0 projectId : ℕ) (moduleType : ModuleType) (newName : SName) (db : Db)
      (p qc : ScenRow),
      p ∈ db.scenarios → p.id = id0 → p.project_id = projectId →
      p.module_type = moduleType →
      db.scenarios.filter (fun r => r.project_id == projectId &&
        r.module_type == moduleType && r.name == newName) = [] →
      qc.project_id = projectId → qc.module_type = moduleType → qc.name = newName →
      qc.id ≠ id0 →
      (renameScenario id0 newName projectId moduleType [.idle, .scen qc] db).1 =
        ⟨false, some (scenarioExistsMsg newName)⟩ ∧
      (renameScenario id0 newName projectId moduleType [.idle, .scen qc] db).2.scenarios =
        db.scenarios ++ [qc]) ∧
    (∀ (id0 scenarioId : ℕ) (newName : SName) (db : Db) (other : OutRow),
      db.outputs.filter (fun r => r.scenario_id == scenarioId &&
        r.name == newName) = [other] →
      other.id ≠ id0 →
      (renameResult id0 newName scenarioId [] db).1 =
        ⟨false, some (resultExistsMsg newName)⟩ ∧
      (renameResult id0 newName scenarioId [] db).2.outputs = db.outputs) ∧
    (∀ (id0 scenarioId : ℕ) (db : Db) (p : OutRow),
      p.id = id0 → p.scenario_id = scenarioId →
      db.outputs.filter (fun r => r.scenario_id == scenarioId &&
        r.name == p.name) = [p] →
      (∀ r ∈ db.outputs, r.id = id0 → r = p) →
      (renameResult id0 p.name scenarioId [] db).1 = ⟨true, none⟩ ∧
      (renameResult id0 p.name scenarioId [] db).2.outputs = db.outputs) ∧
    (∀ (id0 scenarioId : ℕ) (newName : SName) (db : Db) (p qc : OutRow),
      p ∈ db.outputs → p.id = id0 → p.scenario_id = scenarioId →
      db.outputs.filter (fun r => r.scenario_id == scenarioId &&
        r.name == newName) = [] →
      qc.scenario_id = scenarioId → qc.name = newName → qc.id ≠ id0 →
      (renameResult id0 newName scenarioId [.idle, .out qc] db).1 =
        ⟨false, some (resultExistsMsg newName)⟩ ∧
      (renameResult id0 newName scenarioId [.idle, .out qc] db).2.outputs =
        db.outputs ++ [qc]) := by
  refine ⟨?_, ?_, ?_, ?_, ?_, ?_, ?_, ?_, ?_⟩
  · -- renameProject, pre-check conflict
    intro id0 userId newName db other hflt hoid
    have hpre : db.projects.filter
        (fun r => r.user_id == userId && r.name == newName && !(r.id == id0)) = [other] := by
      have h := filter_and_eq_of_filter_eq
        (fun r : ProjRow => r.user_id == userId && r.name == newName)
        (fun r : ProjRow => !(r.id == id0)) db.projects [other] hflt
      simpa [List.filter_cons, hoid] using h
    simp only [renameProject, stepExt, singleProj, hpre]
    exact ⟨by trivial, by trivial⟩
  · -- renameProject, self-rename succeeds
    intro id0 userId db p hpid hpu hflt huniq
    have hpre : db.projects.filter
        (fun r => r.user_id == userId && r.name == p.name && !(r.id == id0)) = [] := by
      have h := filter_and_eq_of_filter_eq
        (fun r : ProjRow => r.user_id == userId && r.name == p.name)
        (fun r : ProjRow => !(r.id == id0)) db.projects [p] hflt
      simpa [List.filter_cons, hpid] using h
    have hconf : (db.projects.any fun r => (r.id == id0 && r.user_id == userId) &&
        (db.projects.any fun q =>
          !(q.id == r.id) && q.user_id == r.user_id && q.name == p.name)) = false := by
      rw [List.any_eq_false]
      intro r hr
      simp only [Bool.and_eq_true, beq_iff_eq, not_and]
      intro hrhit
      obtain ⟨hrid, hru⟩ := hrhit
      have hrp : r = p := huniq r hr hrid
      subst hrp
      rw [Bool.not_eq_true, List.any_eq_false]
      intro q hq
      simp only [Bool.and_eq_true, beq_iff_eq, Bool.not_eq_true', beq_eq_false_iff_ne,
        ne_eq, not_and]
      intro hqpair hqn
      obtain ⟨hqid, hqu⟩ := hqpair
      apply hqid
      have hqmem : q ∈ db.projects.filter
          (fun s => s.user_id == userId && s.name == r.name) :=
        List.mem_filter.mpr ⟨hq, by simp [hqu, hru, hqn]⟩
      rw [hflt] at hqmem
      simp at hqmem
      rw [hqmem]
    have hmap : db.projects.map (fun r =>
        if r.id == id0 && r.user_id == userId then { r with name := p.name } else r) =
        db.projects := by
      apply map_id_of_mem
      intro r hr
      by_cases hhit : (r.id == id0 && r.user_id == userId) = true
      · rw [if_pos hhit]
        simp only [Bool.and_eq_true, beq_iff_eq] at hhit
        rw [huniq r hr hhit.1]
      · rw [if_neg hhit]
    simp only [renameProject, stepExt, singleProj, hpre, updateProjName, logOp_projects]
    rw [hconf]
    simp only [if_false, Bool.false_eq_true, hmap]
    exact ⟨by trivial, by trivial⟩
  · -- renameProject, update-race conflict converted to the message
    intro id0 userId newName db p qc hpmem hpid hpu hflt hqcu hqcn hqcid
    have hpre : db.projects.filter
        (fun r => r.user_id == userId && r.name == newName && !(r.id == id0)) = [] := by
      have h := filter_and_eq_of_filter_eq
        (fun r : ProjRow => r.user_id == userId && r.name == newName)
        (fun r : ProjRow => !(r.id == id0)) db.projects [] hflt
      simpa using h
    have hconf : ((db.projects ++ [qc]).any fun r => (r.id == id0 && r.user_id == userId) &&
        ((db.projects ++ [qc]).any fun q =>
          !(q.id == r.id) && q.user_id == r.user_id && q.name == newName)) = true := by
      rw [List.any_eq_true]
      refine ⟨p, by simp [hpmem], ?_⟩
      simp only [Bool.and_eq_true, beq_iff_eq]
      refine ⟨⟨hpid, hpu⟩, ?_⟩
      rw [List.any_eq_true]
      refine ⟨qc, by simp, ?_⟩
      simp only [Bool.and_eq_true, beq_iff_eq, Bool.not_eq_true', beq_eq_false_iff_ne,
        ne_eq]
      exact ⟨⟨by rw [hpid]; exact hqcid, by rw [hqcu, hpu]⟩, hqcn⟩
    simp only [renameProject, stepExt, applyExt, singleProj, hpre, updateProjName,
      logOp_projects]
    rw [hconf]
    exact ⟨by trivial, by trivial⟩
  · -- renameScenario, pre-check conflict
    intro id0 projectId moduleType newName db other hflt hoid
    have hpre : db.scenarios.filter
        (fun r => r.project_id == projectId && r.module_type == moduleType &&
          r.name == newName && !(r.id == id0)) = [other] := by
      have h := filter_and_eq_of_filter_eq
        (fun r : ScenRow => r.project_id == projectId && r.module_type == moduleType &&
          r.name == newName)
        (fun r : ScenRow => !(r.id == id0)) db.scenarios [other] hflt
      simpa [List.filter_cons, hoid] using h
    simp only [renameScenario, stepExt, singleScen, hpre]
    exact ⟨by trivial, by trivial⟩
  · -- renameScenario, self-rename succeeds
    intro id0 projectId moduleType db p hpid hppr hpmo hflt huniq
    have hpre : db.scenarios.filter
        (fun r => r.project_id == projectId && r.module_type == moduleType &&
          r.name == p.name && !(r.id == id0)) = [] := by
      have h := filter_and_eq_of_filter_eq
        (fun r : ScenRow => r.project_id == projectId && r.module_type == moduleType &&
          r.name == p.name)
        (fun r : ScenRow => !(r.id == id0)) db.scenarios [p] hflt
      simpa [List.filter_cons, hpid] using h
    have hconf : (db.scenarios.any fun r => (r.id == id0) &&
        (db.scenarios.any fun q => !(q.id == r.id) && q.project_id == r.project_id &&
          q.module_type == r.module_type && q.name == p.name)) = false := by
      rw [List.any_eq_false]
      intro r hr
      simp only [Bool.and_eq_true, beq_iff_eq, not_and]
      intro hrid
      have hrp : r = p := huniq r hr hrid
      subst hrp
      rw [Bool.not_eq_true, List.any_eq_false]
      intro q hq
      simp only [Bool.and_eq_true, beq_iff_eq, Bool.not_eq_true', beq_eq_false_iff_ne,
        ne_eq, not_and]
      intro htrip hqn
      obtain ⟨⟨hqid, hqpr⟩, hqmo⟩ := htrip
      apply hqid
      have hqmem : q ∈ db.scenarios.filter
          (fun s => s.project_id == projectId && s.module_type == moduleType &&
            s.name == r.name) :=
        List.mem_filter.mpr ⟨hq, by simp [hqpr, hqmo, hppr, hpmo, hqn]⟩
      rw [hflt] at hqmem
      simp at hqmem
      rw [hqmem]
    have hmap : db.scenarios.map (fun r =>
        if r.id == id0 then { r with name := p.name } else r) = db.scenarios := by
      apply map_id_of_mem
      intro r hr
      by_cases hhit : (r.id == id0) = true
      · rw [if_pos hhit]
        rw [beq_iff_eq] at hhit
        rw [huniq r hr hhit]
      · rw [if_neg hhit]
    simp only [renameScenario, stepExt, singleScen, hpre, updateScenName, logOp_scenarios]
    rw [hconf]
    simp only [if_false, Bool.false_eq_true, hmap]
    exact ⟨by trivial, by trivial⟩
  · -- renameScenario, update-race conflict converted to the message
    intro id0 projectId moduleType newName db p qc hpmem hpid hppr hpmo hflt hqcp hqcm
      hqcn hqcid
    have hpre : db.scenarios.filter
        (fun r => r.project_id == projectId && r.module_type == moduleType &&
          r.name == newName && !(r.id == id0)) = [] := by
      have h := filter_and_eq_of_filter_eq
        (fun r : ScenRow => r.project_id == projectId && r.module_type == moduleType &&
          r.name == newName)
        (fun r : ScenRow => !(r.id == id0)) db.scenarios [] hflt
      simpa using h
    have hconf : ((db.scenarios ++ [qc]).any fun r => (r.id == id0) &&
        ((db.scenarios ++ [qc]).any fun q =>
          !(q.id == r.id) && q.project_id == r.project_id &&
            q.module_type == r.module_type && q.name == newName)) = true := by
      rw [List.any_eq_true]
      refine ⟨p, by simp [hpmem], ?_⟩
      simp only [Bool.and_eq_true, beq_iff_eq]
      refine ⟨hpid, ?_⟩
      rw [List.any_eq_true]
      refine ⟨qc, by simp, ?_⟩
      simp only [Bool.and_eq_true, beq_iff_eq, Bool.not_eq_true', beq_eq_false_iff_ne,
        ne_eq]
      exact ⟨⟨⟨by rw [hpid]; exact hqcid, by rw [hqcp, hppr]⟩, by rw [hqcm, hpmo]⟩, hqcn⟩
    simp only [renameScenario, stepExt, applyExt, singleScen, hpre, updateScenName,
      logOp_scenarios]
    rw [hconf]
    exact ⟨by trivial, by trivial⟩
  · -- renameResult, pre-check conflict
    intro id0 scenarioId newName db other hflt hoid
    have hpre : db.outputs.filter
        (fun r => r.scenario_id == scenarioId && r.name == newName &&
          !(r.id == id0)) = [other] := by
      have h := filter_and_eq_of_filter_eq
        (fun r : OutRow => r.scenario_id == scenarioId && r.name == newName)
        (fun r : OutRow => !(r.id == id0)) db.outputs [other] hflt
      simpa [List.filter_cons, hoid] using h
    simp only [renameResult, stepExt, singleOut, hpre]
    exact ⟨by trivial, by trivial⟩
  · -- renameResult, self-rename succeeds
    intro id0 scenarioId db p hpid hpsc hflt huniq
    have hpre : db.outputs.filter
        (fun r => r.scenario_id == scenarioId && r.name == p.name &&
          !(r.id == id0)) = [] := by
      have h := filter_and_eq_of_filter_eq
        (fun r : OutRow => r.scenario_id == scenarioId && r.name == p.name)
        (fun r : OutRow => !(r.id == id0)) db.outputs [p] hflt
      simpa [List.filter_cons, hpid] using h
    have hconf : (db.outputs.any fun r => (r.id == id0) &&
        (db.outputs.any fun q => !(q.id == r.id) && q.scenario_id == r.scenario_id &&
          q.name == p.name)) = false := by
      rw [List.any_eq_false]
      intro r hr
      simp only [Bool.and_eq_true, beq_iff_eq, not_and]
      intro hrid
      have hrp : r = p := huniq r hr hrid
      subst hrp
      rw [Bool.not_eq_true, List.any_eq_false]
      intro q hq
      simp only [Bool.and_eq_true, beq_iff_eq, Bool.not_eq_true', beq_eq_false_iff_ne,
        ne_eq, not_and]
      intro hqpair hqn
      obtain ⟨hqid, hqsc⟩ := hqpair
      apply hqid
      have hqmem : q ∈ db.outputs.filter
          (fun s => s.scenario_id == scenarioId && s.name == r.name) :=
        List.mem_filter.mpr ⟨hq, by simp [hqsc, hpsc, hqn]⟩
      rw [hflt] at hqmem
      simp at hqmem
      rw [hqmem]
    have hmap : db.outputs.map (fun r =>
        if r.id == id0 then { r with name := p.name } else r) = db.outputs := by
      apply map_id_of_mem
      intro r hr
      by_cases hhit : (r.id == id0) = true
      · rw [if_pos hhit]
        rw [beq_iff_eq] at hhit
        rw [huniq r hr hhit]
      · rw [if_neg hhit]
    simp only [renameResult, stepExt, singleOut, hpre, updateOutName, logOp_outputs]
    rw [hconf]
    simp only [if_false, Bool.false_eq_true, hmap]
    exact ⟨by trivial, by trivial⟩
  · -- renameResult, update-race conflict converted to the message
    intro id0 scenarioId newName db p qc hpmem hpid hpsc hflt hqcs hqcn hqcid
    have hpre : db.outputs.filter
        (fun r => r.scenario_id == scenarioId && r.name == newName &&
          !(r.id == id0)) = [] := by
      have h := filter_and_eq_of_filter_eq
        (fun r : OutRow => r.scenario_id == scenarioId && r.name == newName)
        (fun r : OutRow => !(r.id == id0)) db.outputs [] hflt
      simpa using h
    have hconf : ((db.outputs ++ [qc]).any fun r => (r.id == id0) &&
        ((db.outputs ++ [qc]).any fun q =>
          !(q.id == r.id) && q.scenario_id == r.scenario_id &&
            q.name == newName)) = true := by
      rw [List.any_eq_true]
      refine ⟨p, by simp [hpmem], ?_⟩
      simp only [Bool.and_eq_true, beq_iff_eq]
      refine ⟨hpid, ?_⟩
      rw [List.any_eq_true]
      refine ⟨qc, by simp, ?_⟩
      simp only [Bool.and_eq_true, beq_iff_eq, Bool.not_eq_true', beq_eq_false_iff_ne,
        ne_eq]
      exact ⟨⟨by rw [hpid]; exact hqcid, by rw [hqcs, hpsc]⟩, hqcn⟩
    simp only [renameResult, stepExt, applyExt, singleOut, hpre, updateOutName,
      logOp_outputs]
    rw [hconf]
    exact ⟨by trivial, by trivial⟩

def wP1 : ProjRow :=
  { id := 1, user_id := 0, name := strA "A", description := none, tool_type := .gfa,
    input_data := 0, results_data := 0, size_mb := 0, created_at := 0, updated_at := 0 }

def wP2 : ProjRow := { wP1 with id := 2, name := strA "B" }

def wQP : ProjRow := { wP1 with id := 9, name := strA "C" }

def wS1 : ScenRow :=
  { id := 3, project_id := 7, user_id := 0, module_type := .gfa, name := strA "A",
    description := none, status := .pending, created_at := 0, updated_at := 0 }

def wS2 : ScenRow := { wS1 with id := 4, name := strA "B" }

def wQS : ScenRow := { wS1 with id := 9, name := strA "C" }

def wO1 : OutRow :=
  { id := 5, project_id := 7, scenario_id := 5, module_type := strA "gfa",
    name := strA "A", result_number := 1, metrics := 0, output_data := 0,
    version := 1, created_at := 0 }

def wO2 : OutRow := { wO1 with id := 6, name := strA "B", result_number := 2 }

def wQO : OutRow := { wO1 with id := 9, name := strA "C", result_number := 3 }

def wDb : Db := Db.mk [wP1, wP2] [wS1, wS2] [wO1, wO2] 10 0 []

theorem claim_C5_witness :
    ((renameProject 1 (strA "B") 0 [] wDb).1 =
        ⟨false, some (projectExistsMsg (strA "B"))⟩ ∧
      (renameProject 1 (strA "B") 0 [] wDb).2.projects = wDb.projects) ∧
    ((renameProject 1 (strA "A") 0 [] wDb).1 = ⟨true, none⟩ ∧
      (renameProject 1 (strA "A") 0 [] wDb).2.projects = wDb.projects) ∧
    ((renameProject 1 (strA "C") 0 [.idle, .proj wQP] wDb).1 =
        ⟨false, some (projectExistsMsg (strA "C"))⟩ ∧
      (renameProject 1 (strA "C") 0 [.idle, .proj wQP] wDb).2.projects =
        wDb.projects ++ [wQP]) ∧
    ((renameScenario 3 (strA "B") 7 ModuleType.gfa [] wDb).1 =
        ⟨false, some (scenarioExistsMsg (strA "B"))⟩ ∧
      (renameScenario 3 (strA "B") 7 ModuleType.gfa [] wDb).2.scenarios =
        wDb.scenarios) ∧
    ((renameScenario 3 (strA "A") 7 ModuleType.gfa [] wDb).1 = ⟨true, none⟩ ∧
      (renameScenario 3 (strA "A") 7 ModuleType.gfa [] wDb).2.scenarios =
        wDb.scenarios) ∧
    ((renameScenario 3 (strA "C") 7 ModuleType.gfa [.idle, .scen wQS] wDb).1 =
        ⟨false, some (scenarioExistsMsg (strA "C"))⟩ ∧
      (renameScenario 3 (strA "C") 7 ModuleType.gfa [.idle, .scen wQS] wDb).2.scenarios =
        wDb.scenarios ++ [wQS]) ∧
    ((renameResult 5 (strA "B") 5 [] wDb).1 =
        ⟨false, some (resultExistsMsg (strA "B"))⟩ ∧
      (renameResult 5 (strA "B") 5 [] wDb).2.outputs = wDb.outputs) ∧
    ((renameResult 5 (strA "A") 5 [] wDb).1 = ⟨true, none⟩ ∧
      (renameResult 5 (strA "A") 5 [] wDb).2.outputs = wDb.outputs) ∧
    ((renameResult 5 (strA "C") 5 [.idle, .out wQO] wDb).1 =
        ⟨false, some (resultExistsMsg (strA "C"))⟩ ∧
      (renameResult 5 (strA "C") 5 [.idle, .out wQO] wDb).2.outputs =
        wDb.outputs ++ [wQO]) := by
  obtain ⟨h1, h2, h3, h4, h5, h6, h7, h8, h9⟩ := claim_C5
  exact ⟨h1 1 0 (strA "B") wDb wP2 (by decide) (by decide),
    h2 1 0 wDb wP1 (by decide) (by decide) (by decide) (by decide),
    h3 1 0 (strA "C") wDb wP1 wQP (by decide) (by decide) (by decide) (by decide)
      (by decide) (by decide) (by decide),
    h4 3 7 ModuleType.gfa (strA "B") wDb wS2 (by decide) (by decide),
    h5 3 7 ModuleType.gfa wDb wS1 (by decide) (by decide) (by decide) (by decide)
      (by decide),
    h6 3 7 ModuleType.gfa (strA "C") wDb wS1 wQS (by decide) (by decide) (by decide)
      (by decide) (by decide) (by decide) (by decide) (by decide) (by decide),
    h7 5 5 (strA "B") wDb wO2 (by decide) (by decide),
    h8 5 5 wDb wO1 (by decide) (by decide) (by decide) (by decide),
    h9 5 5 (strA "C") wDb wO1 wQO (by decide) (by decide) (by decide) (by decide)
      (by decide) (by decide) (by decide)⟩
